import Mathlib

/-!
Verification of the Hugo blog backup tool
(`src/hugo_backup_tool/hugo_backup_final.py`) against its natural-language
specification.  The Python program is shallowly embedded: pure helpers become
Lean functions on `String`/`List Char`, the filesystem becomes an explicit
association list from destination-relative path strings to file contents, and
one full `backup` pass becomes a fold over that state.  Python's `re`
substitution and search semantics (leftmost match, chronological backtracking,
greedy and non-greedy repetition) are implemented for the exact regular
expressions appearing in the source.  `\s` is modelled by the ASCII whitespace
characters; MD5 is modelled by an abstract digest function whose only property
used below is that the digest of successfully read bytes is a nonempty string
(a real hexdigest has 32 characters), while a failed read yields `""` exactly
as in `get_file_hash`.
-/

set_option maxHeartbeats 1000000

namespace HugoBackup

/-- First-match association-list lookup, mirroring Python `dict.get`. -/
def lookupA {α : Type} : List (String × α) → String → Option α
  | [], _ => none
  | (k', v) :: rest, k => if k' = k then some v else lookupA rest k

/-- Destination filesystem: map from destination-relative path to file bytes. -/
abbrev FS := List (String × String)

/-- Read a destination file (`none` models a missing file). -/
def fsGet : FS → String → Option String
  | [], _ => none
  | (k', v) :: rest, k => if k' = k then some v else fsGet rest k

/-- Write a destination file, replacing the previous contents in place. -/
def fsSet : FS → String → String → FS
  | [], k, v => [(k, v)]
  | (k', v') :: rest, k, v =>
      if k' = k then (k, v) :: rest else (k', v') :: fsSet rest k v

theorem fsGet_fsSet_self (fs : FS) (k v : String) : fsGet (fsSet fs k v) k = some v := by
  induction fs with
  | nil => simp [fsSet, fsGet]
  | cons h t ih =>
      obtain ⟨k', v'⟩ := h
      by_cases hk : k' = k <;> simp [fsSet, fsGet, hk, ih]

theorem fsGet_fsSet_ne (fs : FS) (k k' v : String) (h : k' ≠ k) :
    fsGet (fsSet fs k v) k' = fsGet fs k' := by
  induction fs with
  | nil => simp [fsSet, fsGet, Ne.symm h]
  | cons hd t ih =>
      obtain ⟨k₀, v₀⟩ := hd
      by_cases hk : k₀ = k
      · subst hk
        simp [fsSet, fsGet, Ne.symm h]
      · by_cases hk' : k₀ = k'
        · subst hk'
          simp [fsSet, fsGet, hk, h, Ne.symm h]
        · simp [fsSet, fsGet, hk, hk', ih]

theorem fsSet_eq_of_get (fs : FS) (k v : String) (h : fsGet fs k = some v) :
    fsSet fs k v = fs := by
  induction fs with
  | nil => simp [fsGet] at h
  | cons hd t ih =>
      obtain ⟨k₀, v₀⟩ := hd
      by_cases hk : k₀ = k
      · subst hk
        simp [fsGet] at h
        simp [fsSet, h]
      · simp [fsGet, hk] at h
        simp [fsSet, hk, ih h]

/-- Set-style insertion used to model Python `set.add` / `set.update`
(first-insertion order, no duplicates). -/
def insertIfAbsent (l : List String) (x : String) : List String :=
  if x ∈ l then l else l ++ [x]

/-- Union of a set-as-list with a list of new elements (`set.update`). -/
def addImages (used : List String) (imgs : List String) : List String :=
  imgs.foldl insertIfAbsent used

/-- Deduplicate keeping the first occurrence (Python `set` built by iteration,
or dict-key first-insertion order). -/
def dedupFirst {α : Type} [DecidableEq α] (l : List α) : List α :=
  (l.foldl (fun acc x => if x ∈ acc then acc else acc ++ [x]) [])

/-- ASCII portion of Python's `\s` character class (`[ \t\n\r\f\v]`). -/
def isPySpace (c : Char) : Bool :=
  c = ' ' ∨ c = '\t' ∨ c = '\n' ∨ c = '\r' ∨ c = '\x0b' ∨ c = '\x0c'

/-- Python `str.strip()` on the modelled whitespace class. -/
def pyStrip (l : List Char) : String :=
  String.mk (((l.dropWhile isPySpace).reverse.dropWhile isPySpace).reverse)

/-- Python `str.rstrip("/")`. -/
def pyRstripSlash (l : List Char) : List Char :=
  (l.reverse.dropWhile (· = '/')).reverse

/-- ASCII `str.lower()`. -/
def pyLowerL (l : List Char) : List Char := l.map Char.toLower

/-- Match a literal prefix, returning the remainder on success. -/
def dropLit : List Char → List Char → Option (List Char)
  | [], s => some s
  | _ :: _, [] => none
  | c :: cs, d :: ds => if d = c then dropLit cs ds else none

/-- Suffix test on character lists (Python `str.endswith`). -/
def endsWithL (l suf : List Char) : Bool :=
  decide (suf.length ≤ l.length) && decide (l.drop (l.length - suf.length) = suf)

/-- Numeric value of a digit string (`int()` on an all-digit string). -/
def digitsToNat (l : List Char) : Nat :=
  l.foldl (fun acc c => 10 * acc + (c.toNat - '0'.toNat)) 0

/-! ## Data model -/

/-- Per-article record (`ArticleInfo` dataclass in the source). -/
structure ArticleInfo where
  title : String
  filename : String
  path : String
  year : Nat
  month : Nat
  day : Nat
  date_str : String
deriving Repr, DecidableEq

/-- One entry of `config['readme']['categories']`. -/
structure CategoryConfig where
  name : Option String
  order : Option Int
deriving Repr, DecidableEq

/-- The configuration values the core reads (already validated/defaulted, as
the spec's "external collaborator" supplies them). -/
structure Config where
  readme_title : String
  categories : List (String × CategoryConfig)
  date_format : String
  dirs : List (String × String)
  ignore_files : List String
  markdown_extensions : List String
  path_patterns : List String
  img_from_patterns : List String
  img_to_pattern : String
  article_corrections : List (String × String)
deriving Repr

/-- The source tree as enumerated by `rglob`: per category a list of
(relative path, file text) in traversal order; `none` models a missing
directory.  `pics` is the asset root. -/
structure SourceTree where
  docs : List (String × List (String × String))
  pics : Option (List (String × String))
deriving Repr

/-- Mutable run state owned by the orchestrator: destination tree, the
asset-reference set, the per-category article buckets, the reported list of
updated files, and the log of every destination write performed. -/
structure RunState where
  dest : FS
  used_images : List String
  articles : List (String × List ArticleInfo)
  updated_files : List String
  writeLog : List String
deriving Repr

/-! ## ContentHasher (`get_file_hash`, `file_needs_update`) -/

/-- Abstract MD5 hexdigest of file bytes.  Only the facts that it is a
function of the bytes and that its output is nonempty are used. -/
def md5hex (s : String) : String := "md5:" ++ s

theorem md5hex_ne_empty (s : String) : md5hex s ≠ "" := by
  intro h
  have h1 : ("md5:" ++ s).length = ("" : String).length := congrArg String.length h
  rw [String.length_append] at h1
  have h4 : ("md5:" : String).length = 4 := rfl
  have h0 : ("" : String).length = 0 := rfl
  omega

/-- `get_file_hash`: digest the bytes read from a file; any read failure
(`except Exception`) degrades to the empty string. -/
def get_file_hash (read : Option String) : String :=
  match read with
  | some bytes => md5hex bytes
  | none => ""

/-- `file_needs_update`: a missing target forces an update, otherwise the two
digests are compared.  `targetExists` is `target_file.exists()`; `srcRead` and
`tgtRead` are the outcomes of reading the two files (`none` = read failure). -/
def file_needs_update (targetExists : Bool) (srcRead tgtRead : Option String) : Bool :=
  if targetExists then get_file_hash srcRead != get_file_hash tgtRead else true

/-! ## Regex engines for the exact patterns of the source

Each Python pattern is implemented directly, with the backtracking order of
the `re` engine (leftmost start position, later choice points backtracked
first, greedy pieces longest-first, non-greedy pieces shortest-first). -/

/-- Remainders after consuming a prefix matching `\s*\n` (an all-whitespace
run whose last consumed character is a newline), in greedy (longest-first)
backtracking order. -/
def wsCandidatesDesc (s : List Char) : List (List Char) :=
  ((List.range (s.takeWhile isPySpace).length).reverse).filterMap
    (fun j => if s.getD j ' ' = '\n' then some (s.drop (j + 1)) else none)

/-- Greedy-only consumption of `\s*\n` (used where the pattern ends and no
backtracking can occur). -/
def wsGreedy (s : List Char) : Option (List Char) :=
  (wsCandidatesDesc s).head?

/-- Matcher for `^---\s*\n(.*?)\n---\s*\n` (DOTALL) at the start of the text:
returns the captured frontmatter block and the remainder after the match. -/
def fmMatch (s : List Char) : Option (List Char × List Char) :=
  match s with
  | '-' :: '-' :: '-' :: r =>
      (wsCandidatesDesc r).findSome? (fun rest1 =>
        (List.range (rest1.length + 1)).findSome? (fun k =>
          match rest1.drop k with
          | '\n' :: '-' :: '-' :: '-' :: r2 =>
              match wsGreedy r2 with
              | some rest => some (rest1.take k, rest)
              | none => none
          | _ => none))
  | _ => none

/-- Options for an optional quote `["\']?` (greedy: consume first). -/
def quoteOpts (l : List Char) : List (List Char) :=
  match l with
  | c :: rest => if c = '"' ∨ c = '\'' then [rest, l] else [l]
  | [] => [[]]

/-- MULTILINE `$`: end of string or immediately before a newline. -/
def dollarOk (l : List Char) : Bool :=
  match l with
  | [] => true
  | c :: _ => c = '\n'

/-- Match `\s*["\']?(.*?)["\']?\s*$` (MULTILINE, no DOTALL) against `r`,
which starts right after a literal `title:`; returns the captured group. -/
def titleMatchAt (r : List Char) : Option (List Char) :=
  (List.range ((r.takeWhile isPySpace).length + 1)).reverse.findSome? (fun i1 =>
    (quoteOpts (r.drop i1)).findSome? (fun r2 =>
      (List.range ((r2.takeWhile (· ≠ '\n')).length + 1)).findSome? (fun k =>
        (quoteOpts (r2.drop k)).findSome? (fun r4 =>
          (List.range ((r4.takeWhile isPySpace).length + 1)).reverse.findSome? (fun i2 =>
            if dollarOk (r4.drop i2) then some (r2.take k) else none)))))

/-- `re.search(r'title:\s*["\']?(.*?)["\']?\s*$', fm, re.MULTILINE)`:
leftmost occurrence wins. -/
def titleSearch (fm : List Char) : Option (List Char) :=
  (List.range (fm.length + 1)).findSome? (fun p =>
    match dropLit ('t' :: 'i' :: 't' :: 'l' :: 'e' :: ':' :: []) (fm.drop p) with
    | some r => titleMatchAt r
    | none => none)

/-- Fueled `re.sub` driver: at each position try the matcher; on a match emit
the replacement and continue after the matched span, otherwise emit one
character and move on.  Every step consumes at least one character, so fuel
equal to the input length never runs out; the guard on the match remainder
only keeps the recursion structural. -/
def reSubFuel (m : List Char → Option (List Char × List Char)) :
    Nat → List Char → List Char
  | 0, l => l
  | _ + 1, [] => []
  | fuel + 1, c :: cs =>
      match m (c :: cs) with
      | some (rep, rest) =>
          if rest.length < (c :: cs).length then rep ++ reSubFuel m fuel rest
          else c :: reSubFuel m fuel cs
      | none => c :: reSubFuel m fuel cs

/-- `re.sub` over a whole text. -/
def reSubGen (m : List Char → Option (List Char × List Char)) (l : List Char) :
    List Char :=
  reSubFuel m l.length l

/-- Fueled `re.findall` driver collecting one capture per match. -/
def scanFuel (m : List Char → Option (List Char × List Char)) :
    Nat → List Char → List (List Char)
  | 0, _ => []
  | _ + 1, [] => []
  | fuel + 1, c :: cs =>
      match m (c :: cs) with
      | some (cap, rest) =>
          if rest.length < (c :: cs).length then cap :: scanFuel m fuel rest
          else scanFuel m fuel cs
      | none => scanFuel m fuel cs

/-- `re.findall` over a whole text, one capture per match. -/
def scanCollect (m : List Char → Option (List Char × List Char)) (l : List Char) :
    List (List Char) :=
  scanFuel m l.length l

/-- Matcher for one image-link rewrite
`!\[([^\]]*)\]\(<escaped from-pattern>([^)]+)\)` with replacement
`![\1](<to_pattern>\2)` (source lines 175-181): returns (replacement, rest). -/
def imgLinkMatcher (fromPat toPat : List Char) (s : List Char) :
    Option (List Char × List Char) :=
  match s with
  | '!' :: '[' :: r =>
      let alt := r.takeWhile (· ≠ ']')
      match r.drop alt.length with
      | ']' :: '(' :: r2 =>
          match dropLit fromPat r2 with
          | some r3 =>
              let rest := r3.takeWhile (· ≠ ')')
              if rest.isEmpty then none
              else
                match r3.drop rest.length with
                | ')' :: r4 =>
                    some ('!' :: '[' :: alt ++ ']' :: '(' :: toPat ++ rest ++ [')'], r4)
                | _ => none
          | none => none
      | _ => none
  | _ => none

/-- Matcher for the first article-reference rewrite (source lines 186-192):
pattern `\[([^\]]+)\]\(/<old>/([^)]*)?(\))`, replacement
`[\1](<new_dir>\2\3)` — note that group 3 is the closing parenthesis and the
template carries a further literal `)`. -/
def articleMatcher1 (oldDir newDir : List Char) (s : List Char) :
    Option (List Char × List Char) :=
  match s with
  | '[' :: r =>
      let text := r.takeWhile (· ≠ ']')
      if text.isEmpty then none
      else
        match r.drop text.length with
        | ']' :: '(' :: r2 =>
            match dropLit ('/' :: (oldDir ++ ['/'])) r2 with
            | some r3 =>
                let g2 := r3.takeWhile (· ≠ ')')
                match r3.drop g2.length with
                | ')' :: r5 =>
                    some ('[' :: text ++ ']' :: '(' :: newDir ++ g2 ++ [')', ')'], r5)
                | _ => none
            | none => none
        | _ => none
  | _ => none

/-- Matcher for the bare-directory article rewrite (source lines 194-201):
pattern `\[([^\]]+)\]\(/<old>(/[^)]*)?(\))`, replacement
`[\1](<new_dir_rstripped>\2\3)` — again group 3 plus a literal `)`. -/
def articleMatcher2 (oldDir newDirStripped : List Char) (s : List Char) :
    Option (List Char × List Char) :=
  match s with
  | '[' :: r =>
      let text := r.takeWhile (· ≠ ']')
      if text.isEmpty then none
      else
        match r.drop text.length with
        | ']' :: '(' :: r2 =>
            match dropLit ('/' :: oldDir) r2 with
            | some r3 =>
                match r3 with
                | '/' :: r3' =>
                    let g2t := r3'.takeWhile (· ≠ ')')
                    match r3'.drop g2t.length with
                    | ')' :: r5 =>
                        some ('[' :: text ++ ']' :: '(' :: newDirStripped ++
                          '/' :: g2t ++ [')', ')'], r5)
                    | _ => none
                | ')' :: r5 =>
                    some ('[' :: text ++ ']' :: '(' :: newDirStripped ++ [')', ')'], r5)
                | _ => none
            | none => none
        | _ => none
  | _ => none

/-- Matcher for a single `!\[.*?\]\(([^)]+)\)` occurrence (source line 151):
returns (captured path, rest after the match).  The alt text is non-greedy and
may not contain a newline. -/
def imgRefMatcher (s : List Char) : Option (List Char × List Char) :=
  match s with
  | '!' :: '[' :: r =>
      (List.range ((r.takeWhile (· ≠ '\n')).length + 1)).findSome? (fun k =>
        match r.drop k with
        | ']' :: '(' :: r2 =>
            let path := r2.takeWhile (· ≠ ')')
            if path.isEmpty then none
            else
              match r2.drop path.length with
              | ')' :: r4 => some (path, r4)
              | _ => none
        | _ => none)
  | _ => none

/-! ## DocumentTransformer -/

/-- Sentinel title (`"未知标题"`, "unknown title"). -/
def unknownTitle : String := "未知标题"

/-- `extract_frontmatter_title` (source lines 135-146): find the frontmatter
block, search it for a `title:` field, strip the value; degrade to the
sentinel on any failure. -/
def extract_frontmatter_title (content : String) : String :=
  match fmMatch content.data with
  | some (fm, _) =>
      match titleSearch fm with
      | some g => pyStrip g
      | none => unknownTitle
  | none => unknownTitle

/-- First configured path pattern that prefixes the cleaned path, with the
prefix removed (source lines 160-164). -/
def findFirstPat : List String → List Char → Option (List Char)
  | [], _ => none
  | p :: ps, clean =>
      match dropLit p.data clean with
      | some rest => some rest
      | none => findFirstPat ps clean

/-- `extract_image_paths` (source lines 148-166): collect every image embed's
path, strip a `#` anchor, keep only paths starting with a configured pattern
(with the pattern removed), deduplicated in first-insertion order. -/
def extract_image_paths (cfg : Config) (content : String) : List String :=
  (scanCollect imgRefMatcher content.data).foldl (fun acc cap =>
    let clean := cap.takeWhile (· ≠ '#')
    match findFirstPat cfg.path_patterns clean with
    | some rel => insertIfAbsent acc (String.mk rel)
    | none => acc) []

/-- `fix_paths_in_content` (source lines 168-203): the image-prefix rewrites
in configured order, then per article-correction pair the `/<old>/<rest>` and
bare `/<old>` rewrites. -/
def fix_paths_in_content (cfg : Config) (content : String) : String :=
  let c1 := cfg.img_from_patterns.foldl
    (fun c pat => String.mk (reSubGen (imgLinkMatcher pat.data cfg.img_to_pattern.data) c.data))
    content
  cfg.article_corrections.foldl
    (fun c od =>
      let c' := String.mk (reSubGen (articleMatcher1 od.1.data od.2.data) c.data)
      String.mk (reSubGen (articleMatcher2 od.1.data (pyRstripSlash od.2.data)) c'.data))
    c1

/-- `process_markdown_content` (source lines 205-220): title, image refs,
frontmatter removal (`re.sub` of the anchored pattern removes at most the
single match at the start), path fixing, and rendering. -/
def process_markdown_content (cfg : Config) (content : String) :
    String × String × List String :=
  let title := extract_frontmatter_title content
  let image_paths := extract_image_paths cfg content
  let body :=
    match fmMatch content.data with
    | some (_, rest) => rest
    | none => content.data
  let fixed := fix_paths_in_content cfg (String.mk body)
  ("# " ++ title ++ "\n\n" ++ pyStrip fixed.data, title, image_paths)

/-- Guard of the date regex `^(\d{4})(\d{2})(\d{2})_`: eight leading digits
followed by an underscore. -/
def dateCond (cs : List Char) : Prop :=
  9 ≤ cs.length ∧ (cs.take 8).all Char.isDigit = true ∧ cs.getD 8 ' ' = '_'

instance (cs : List Char) : Decidable (dateCond cs) := by
  unfold dateCond
  infer_instance

/-- `extract_date_from_filename` (source lines 222-233). -/
def extract_date_from_filename (cfg : Config) (filename : String) :
    Nat × Nat × Nat × String :=
  let cs := filename.data
  if dateCond cs then
    let ys := cs.take 4
    let ms := (cs.drop 4).take 2
    let ds := (cs.drop 6).take 2
    let dstr :=
      if cfg.date_format = "YYYY-MM-DD" then
        String.mk ys ++ "-" ++ String.mk ms ++ "-" ++ String.mk ds
      else
        String.mk ys ++ "年" ++ toString (digitsToNat ms) ++ "月" ++
          toString (digitsToNat ds) ++ "日"
    (digitsToNat ys, digitsToNat ms, digitsToNat ds, dstr)
  else (0, 0, 0, "")

/-! ## Filters and orchestrator helpers -/

/-- `Path.name`: the part after the last `/`. -/
def baseName (s : String) : String :=
  String.mk ((s.data.reverse.takeWhile (· ≠ '/')).reverse)

/-- `is_markdown_file` (source lines 113-115). -/
def isMarkdownFile (cfg : Config) (filename : String) : Bool :=
  cfg.markdown_extensions.any (fun ext => endsWithL (pyLowerL filename.data) ext.data)

/-- `should_ignore_file` (source lines 109-111). -/
def shouldIgnoreFile (cfg : Config) (filename : String) : Bool :=
  cfg.ignore_files.contains filename

/-- Decision of source lines 293-299: compare the processed content with the
destination.  `none` = destination missing, `some none` = destination exists
but reading it raised, `some (some existing)` = destination contents. -/
def doc_needs_update (processed : String) (target : Option (Option String)) : Bool :=
  match target with
  | none => true
  | some none => true
  | some (some existing) => existing != processed

/-! ## IndexBuilder (`generate_readme`, source lines 362-419) -/

/-- Sort key of line 370: `x[1].get('order', 999)`. -/
def effOrder (c : CategoryConfig) : Int := c.order.getD 999

/-- `sorted(categories_config.items(), key=...)`: Python's sort is stable, so
equal keys keep configuration (dict-insertion) order; `insertionSort` with a
non-strict relation has exactly that behaviour. -/
def sortedCategories (cfg : Config) : List (String × CategoryConfig) :=
  List.insertionSort (fun a b => effOrder a.2 ≤ effOrder b.2) cfg.categories

/-- Python tuple order on `(year, month, day)`. -/
def tripleLex (a b : Nat × Nat × Nat) : Prop :=
  a.1 < b.1 ∨ (a.1 = b.1 ∧ (a.2.1 < b.2.1 ∨ (a.2.1 = b.2.1 ∧ a.2.2 ≤ b.2.2)))

instance (a b : Nat × Nat × Nat) : Decidable (tripleLex a b) := by
  unfold tripleLex
  infer_instance

/-- The sort key of line 393. -/
def dateKey (a : ArticleInfo) : Nat × Nat × Nat := (a.year, a.month, a.day)

/-- Dated articles of one year bucket (`articles_by_year[year]`, in discovery
order), sorted by full date descending; `reverse=True` keeps equal keys in
original order, which is `insertionSort` with the reflexive reversed
relation. -/
def sortedYearArticles (arts : List ArticleInfo) (y : Nat) : List ArticleInfo :=
  List.insertionSort (fun a b => tripleLex (dateKey b) (dateKey a))
    ((arts.filter (fun a => 0 < a.year)).filter (fun a => a.year = y))

/-- The distinct years of the dated articles, in first-occurrence order
(`articles_by_year.keys()`). -/
def articlesByYearKeys (arts : List ArticleInfo) : List Nat :=
  dedupFirst ((arts.filter (fun a => 0 < a.year)).map (·.year))

/-- `sorted(articles_by_year.keys(), reverse=True)`. -/
def yearsSortedOf (arts : List ArticleInfo) : List Nat :=
  List.insertionSort (fun a b : Nat => b ≤ a) (articlesByYearKeys arts)

/-- One `* ...` bullet of a year section (lines 397-401). -/
def renderArticleLine (a : ArticleInfo) : String :=
  if a.date_str ≠ "" then
    "* " ++ a.date_str ++ " [" ++ a.title ++ "](" ++ a.path ++ ")\n"
  else
    "* [" ++ a.title ++ "](" ++ a.path ++ ")\n"

/-- One bullet of the undated (`其他`) section (line 410). -/
def renderNoDateLine (a : ArticleInfo) : String :=
  "* [" ++ a.title ++ "](" ++ a.path ++ ")\n"

/-- One `## <year>` section (lines 387-403). -/
def renderYear (arts : List ArticleInfo) (y : Nat) : String :=
  "## " ++ toString y ++ "\n\n" ++
    String.join ((sortedYearArticles arts y).map renderArticleLine) ++ "\n"

/-- One `# <category>` section (lines 372-413). -/
def renderCategory (articlesMap : List (String × List ArticleInfo))
    (cat : String × CategoryConfig) : String :=
  let catName := cat.2.name.getD cat.1
  let arts := (lookupA articlesMap cat.1).getD []
  "# " ++ catName ++ "\n\n" ++
    (if arts.isEmpty then "暂无内容\n\n"
     else
       String.join ((yearsSortedOf arts).map (renderYear arts)) ++
         (let nodate := arts.filter (fun a => a.year = 0)
          if nodate.isEmpty then ""
          else "## 其他\n\n" ++ String.join (nodate.map renderNoDateLine) ++ "\n"))

/-- The full README text (lines 362-413); the file write happens in the
orchestrator. -/
def generate_readme_content (cfg : Config)
    (articlesMap : List (String × List ArticleInfo)) : String :=
  (sortedCategories cfg).foldl (fun acc cat => acc ++ renderCategory articlesMap cat)
    ("# " ++ cfg.readme_title ++ "\n\n")

/-! ## SyncOrchestrator (`process_markdown_files`, `copy_used_images`,
`backup`) -/

/-- The article buckets created in `__init__` (lines 79-81): one empty bucket
per configured category. -/
def initArticles (cfg : Config) : List (String × List ArticleInfo) :=
  cfg.categories.map (fun c => (c.1, ([] : List ArticleInfo)))

/-- `self.articles[category].append(info)`: in-place append to the existing
bucket; a missing key raises `KeyError` (handled at the call site). -/
def articlesAppend : List (String × List ArticleInfo) → String → ArticleInfo →
    List (String × List ArticleInfo)
  | [], _, _ => []
  | (k, v) :: t, cat, info =>
      (if k = cat then (k, v ++ [info]) else (k, v)) :: articlesAppend t cat info

/-- The `ArticleInfo` built at lines 278-286 for one source file; `tdir` is
the destination-relative category directory, `f` is (relative path, text). -/
def articleInfoOf (cfg : Config) (tdir : String) (f : String × String) : ArticleInfo :=
  let name := baseName f.1
  let d := extract_date_from_filename cfg name
  { title := extract_frontmatter_title f.2
    filename := name
    path := tdir ++ "/" ++ f.1
    year := d.1, month := d.2.1, day := d.2.2.1, date_str := d.2.2.2 }

/-- Processing of one enumerated source file (body of the loop at lines
255-312).  Non-markdown and ignored files are skipped; the asset references
are accumulated before the bucket append, so a `KeyError` on a category with
no configured bucket still keeps them (lines 272-287); the processed content
is compared against the existing destination text and written only on
difference (lines 290-309). -/
def docStep (cfg : Config) (tdir cat : String) (st : RunState) (f : String × String) :
    RunState :=
  let name := baseName f.1
  if isMarkdownFile cfg name = false then st
  else if shouldIgnoreFile cfg name then st
  else
    let used' := addImages st.used_images (extract_image_paths cfg f.2)
    match lookupA st.articles cat with
    | none => { st with used_images := used' }
    | some _ =>
        let arts' := articlesAppend st.articles cat (articleInfoOf cfg tdir f)
        let tgt := tdir ++ "/" ++ f.1
        let processed := (process_markdown_content cfg f.2).1
        if doc_needs_update processed ((fsGet st.dest tgt).map some) then
          { dest := fsSet st.dest tgt processed
            used_images := used'
            articles := arts'
            updated_files := st.updated_files ++ [cat ++ "/" ++ name]
            writeLog := st.writeLog ++ [tgt] }
        else
          { st with used_images := used', articles := arts' }

/-- `process_markdown_files` for one configured category mapping (lines
240-314): skipped for `pics` (line 458) and for a missing source directory
(lines 245-247). -/
def dirStep (cfg : Config) (src : SourceTree) (st : RunState) (cd : String × String) :
    RunState :=
  if cd.1 = "pics" then st
  else
    match lookupA src.docs cd.1 with
    | none => st
    | some files => files.foldl (docStep cfg cd.2 cd.1) st

/-- `process_markdown_files` for every non-`pics` category in configuration
order (lines 240-314 driven by lines 457-459). -/
def docsPhase (cfg : Config) (src : SourceTree) (st0 : RunState) : RunState :=
  cfg.dirs.foldl (dirStep cfg src) st0

/-- One iteration of the loop at lines 338-356: skip dangling references,
then copy when `file_needs_update` says so.  The accumulator carries
(state, copied_count, skipped_count). -/
def imgStep (files : List (String × String)) (tpics : String)
    (acc : RunState × Nat × Nat) (p : String) : RunState × Nat × Nat :=
  let st := acc.1
  match lookupA files p with
  | none => acc
  | some bytes =>
      let tpath := tpics ++ "/" ++ p
      let tgtRead := fsGet st.dest tpath
      if file_needs_update tgtRead.isSome (some bytes) tgtRead then
        ({ st with
            dest := fsSet st.dest tpath bytes
            updated_files := st.updated_files ++ ["pics/" ++ p]
            writeLog := st.writeLog ++ [tpath] },
         acc.2.1 + 1, acc.2.2)
      else (st, acc.2.1, acc.2.2 + 1)

/-- `copy_used_images` (lines 316-360): returns the new state together with
(copied_count, skipped_count, unused_count); the unused count is
`len(all_images) - len(self.used_images)`, a Python `int` subtraction. -/
def copy_used_images (cfg : Config) (src : SourceTree) (st : RunState) :
    RunState × Nat × Nat × Int :=
  match lookupA cfg.dirs "pics", src.pics with
  | some tpics, some files =>
      let all_images := dedupFirst (files.map Prod.fst)
      let r := st.used_images.foldl (imgStep files tpics) (st, 0, 0)
      (r.1, r.2.1, r.2.2,
        (all_images.length : Int) - (st.used_images.length : Int))
  | _, _ => (st, 0, 0, 0)

/-- `generate_readme`'s unconditional write of `README.md` (lines 415-417). -/
def writeReadme (cfg : Config) (st : RunState) : RunState :=
  let r := generate_readme_content cfg st.articles
  { st with
      dest := fsSet st.dest "README.md" r
      writeLog := st.writeLog ++ ["README.md"] }

/-- Initial run state (lines 66-81) over a given destination tree. -/
def initState (cfg : Config) (dest0 : FS) : RunState :=
  { dest := dest0, used_images := [], articles := initArticles cfg,
    updated_files := [], writeLog := [] }

/-- One full `backup` pass (lines 445-472): documents, then referenced
assets, then the README. -/
def backup (cfg : Config) (src : SourceTree) (dest0 : FS) : RunState :=
  let st1 := docsPhase cfg src (initState cfg dest0)
  let st2 := (copy_used_images cfg src st1).1
  writeReadme cfg st2

/-! ## Specification-side helpers used to state the theorems -/

/-- A file the loop body actually processes (markdown and not ignored). -/
def processableB (cfg : Config) (f : String × String) : Bool :=
  isMarkdownFile cfg (baseName f.1) && !shouldIgnoreFile cfg (baseName f.1)

/-- Destination path and processed content of one document. -/
def fileJob (cfg : Config) (tdir : String) (f : String × String) : String × String :=
  (tdir ++ "/" ++ f.1, (process_markdown_content cfg f.2).1)

/-- The (target, processed content) pairs a category contributes: nothing for
`pics`, a missing directory, or a category without a configured bucket
(whose files all die on the `KeyError` before writing). -/
def catJobs (cfg : Config) (src : SourceTree) (cd : String × String) :
    List (String × String) :=
  if cd.1 = "pics" then []
  else
    match lookupA src.docs cd.1 with
    | none => []
    | some files =>
        if (lookupA (initArticles cfg) cd.1).isSome then
          (files.filter (processableB cfg)).map (fileJob cfg cd.2)
        else []

/-- All document write targets with their processed contents. -/
def docJobs (cfg : Config) (src : SourceTree) : List (String × String) :=
  (cfg.dirs.map (catJobs cfg src)).flatten

/-- All document write targets. -/
def docTargetsOf (cfg : Config) (src : SourceTree) : List String :=
  (docJobs cfg src).map Prod.fst

/-- The asset-reference set a pass accumulates; it does not depend on the
destination tree, so it is defined over the empty one. -/
def usedOf (cfg : Config) (src : SourceTree) : List String :=
  (docsPhase cfg src (initState cfg [])).used_images

/-- The article buckets a pass accumulates (destination-independent). -/
def articlesOf (cfg : Config) (src : SourceTree) : List (String × List ArticleInfo) :=
  (docsPhase cfg src (initState cfg [])).articles

/-- The asset write targets of a pass. -/
def imgTargetsOf (cfg : Config) (src : SourceTree) : List String :=
  match lookupA cfg.dirs "pics", src.pics with
  | some tpics, some _ => (usedOf cfg src).map (fun p => tpics ++ "/" ++ p)
  | _, _ => []

/-- Every destination path a pass may write: the README plus the document and
asset targets. -/
def runTargets (cfg : Config) (src : SourceTree) : List String :=
  "README.md" :: (docTargetsOf cfg src ++ imgTargetsOf cfg src)

/-! ## Small helper lemmas -/

theorem length_pos_ne_empty (s : String) (h : 0 < s.length) : s ≠ "" := by
  intro he
  rw [he] at h
  exact absurd h (by decide)

/-- A configuration holding only the defaults relevant to the pinned
examples. -/
def cfgDefault : Config :=
  { readme_title := "博客文章备份", categories := [], date_format := "YYYY-MM-DD",
    dirs := [], ignore_files := [], markdown_extensions := [".md"],
    path_patterns := [], img_from_patterns := [], img_to_pattern := "",
    article_corrections := [] }

/-! ## Claim C2 — hash failures and `file_needs_update` -/

/-- Claim C2, counterexample: when reading **both** files fails, the two
digests are both `""`, they compare equal, and `file_needs_update` returns
`false` — the claim demands `true` whenever either `get_file_hash` call
fails, so a double failure does cause a silent skip. -/
theorem c2_counterexample_both_hash_failures :
    file_needs_update true none none ≠ true := by decide

/-- Claim C2 (amended): a missing destination forces an update; if exactly
one of the two reads fails during digesting, the empty digest differs from
the real (nonempty) digest and the update is forced; but if both reads fail
the empty digests compare equal and the file is skipped. -/
theorem c2_amended_hash_failure_forces_update (te : Bool) (sr tr : Option String) :
    (te = false → file_needs_update te sr tr = true) ∧
    (∀ s : String, sr = none → tr = some s → file_needs_update true sr tr = true) ∧
    (∀ s : String, sr = some s → tr = none → file_needs_update true sr tr = true) ∧
    (sr = none → tr = none → file_needs_update true sr tr = false) := by
  refine ⟨?_, ?_, ?_, ?_⟩
  · intro h
    subst h
    simp [file_needs_update]
  · intro s h1 h2
    subst h1; subst h2
    simp [file_needs_update, get_file_hash, bne_iff_ne]
    exact Ne.symm (md5hex_ne_empty s)
  · intro s h1 h2
    subst h1; subst h2
    simp [file_needs_update, get_file_hash, bne_iff_ne]
    exact md5hex_ne_empty s
  · intro h1 h2
    subst h1; subst h2
    simp [file_needs_update, get_file_hash]

/-- Witness for C2 amended: a failed source read next to a readable
destination forces the update. -/
theorem c2_amended_witness :
    (none : Option String) = none ∧ (some "x" : Option String) = some "x" ∧
      file_needs_update true none (some "x") = true :=
  ⟨rfl, rfl,
    (c2_amended_hash_failure_forces_update true none (some "x")).2.1 "x" rfl rfl⟩

/-! ## Claim C8 — the date invariant -/

/-- Claim C8, counterexample: filename `00000101_post.md` matches the date
pattern, so `year = int("0000") = 0` while `date_str = "0000-01-01" ≠ ""`,
violating the claimed equivalence `year == 0 ↔ date_str == ""`. -/
theorem c8_counterexample_year_zero_nonempty_date :
    (extract_date_from_filename cfgDefault "00000101_post.md").1 = 0 ∧
    (extract_date_from_filename cfgDefault "00000101_post.md").2.2.2 = "0000-01-01" ∧
    ("0000-01-01" : String) ≠ "" := by decide

/-- Claim C8 (amended): `date_str = ""` always implies `year = 0`, and the
converse can only fail when the filename matches the date pattern with year
digits denoting 0 (i.e. `0000`); the pinned examples `20230115_post.md` and
`post.md` behave as stated. -/
theorem c8_amended_date_invariant (cfg : Config) (fn : String) :
    ((extract_date_from_filename cfg fn).2.2.2 = "" →
      (extract_date_from_filename cfg fn).1 = 0) ∧
    ((extract_date_from_filename cfg fn).1 = 0 →
      (extract_date_from_filename cfg fn).2.2.2 = "" ∨ digitsToNat (fn.data.take 4) = 0) ∧
    extract_date_from_filename cfgDefault "20230115_post.md" =
      (2023, 1, 15, "2023-01-15") ∧
    extract_date_from_filename cfgDefault "post.md" = (0, 0, 0, "") := by
  refine ⟨?_, ?_, by decide, by decide⟩
  · intro hds
    by_cases h : dateCond fn.data
    · exfalso
      revert hds
      simp only [extract_date_from_filename, if_pos h]
      by_cases hfmt : cfg.date_format = "YYYY-MM-DD"
      · simp only [if_pos hfmt]
        intro hds
        have h1 := congrArg String.length hds
        simp only [String.length_append] at h1
        have e1 : ("-" : String).length = 1 := rfl
        have e0 : ("" : String).length = 0 := rfl
        omega
      · simp only [if_neg hfmt]
        intro hds
        have h1 := congrArg String.length hds
        simp only [String.length_append] at h1
        have e1 : ("年" : String).length = 1 := rfl
        have e2 : ("月" : String).length = 1 := rfl
        have e3 : ("日" : String).length = 1 := rfl
        have e0 : ("" : String).length = 0 := rfl
        omega
    · simp [extract_date_from_filename, if_neg h]
  · intro hy
    by_cases h : dateCond fn.data
    · right
      simpa [extract_date_from_filename, if_pos h] using hy
    · left
      simp [extract_date_from_filename, if_neg h]

/-- Witness for C8 amended: `post.md` has an empty date string, and the
theorem forces its year to be 0. -/
theorem c8_amended_witness :
    (extract_date_from_filename cfgDefault "post.md").2.2.2 = "" ∧
    (extract_date_from_filename cfgDefault "post.md").1 = 0 :=
  ⟨by decide, (c8_amended_date_invariant cfgDefault "post.md").1 (by decide)⟩

/-! ## Claim C6 — the pinned rewrite examples -/

/-- The configuration of the pinned rewrite examples: from-prefix
`/old/img/` → to-pattern `/img/` and old-directory `drafts` →
new-directory `/posts/`. -/
def cfgC6 : Config :=
  { readme_title := "", categories := [], date_format := "YYYY-MM-DD",
    dirs := [], ignore_files := [], markdown_extensions := [".md"],
    path_patterns := [], img_from_patterns := ["/old/img/"], img_to_pattern := "/img/",
    article_corrections := [("drafts", "/posts/")] }

/-- Claim C6: the image rewrite behaves as pinned, but both article
rewrites emit a duplicated closing parenthesis: the substitution template
`[\1]({new_dir}\2\3)` interpolates group 3 — which captured the closing
parenthesis `(\))` — and then appends another literal `)`, so
`[see](/drafts/topic)` becomes `[see](/posts/topic))` instead of the
specified `[see](/posts/topic)`, and `[see](/drafts)` becomes
`[see](/posts))`.  This contradicts the documented intent (clean link
rewriting), so the code, not the claim, is at fault. -/
theorem c6_rewrite_evaluation :
    fix_paths_in_content cfgC6 "![x](/old/img/a.png)" = "![x](/img/a.png)" ∧
    fix_paths_in_content cfgC6 "[see](/drafts/topic)" = "[see](/posts/topic))" ∧
    fix_paths_in_content cfgC6 "[see](/drafts)" = "[see](/posts))" ∧
    ("[see](/posts/topic))" : String) ≠ "[see](/posts/topic)" ∧
    ("[see](/posts))" : String) ≠ "[see](/posts)" := by
  refine ⟨by decide, by decide, by decide, by decide, by decide⟩

/-! ## Claim C7 — title fallback -/

/-- Claim C7: title extraction totally degrades — a document whose text has
no frontmatter match, or whose frontmatter has no `title:` match, yields the
sentinel `未知标题`; and the pinned document with
`title: "Hello, World"` yields `Hello, World` with quotes and whitespace
stripped. -/
theorem c7_title_fallback (content : String) :
    (fmMatch content.data = none → extract_frontmatter_title content = unknownTitle) ∧
    (∀ fm rest, fmMatch content.data = some (fm, rest) → titleSearch fm = none →
      extract_frontmatter_title content = unknownTitle) ∧
    extract_frontmatter_title "---\ntitle: \"Hello, World\"\n---\nbody\n" =
      "Hello, World" := by
  refine ⟨?_, ?_, by decide⟩
  · intro h
    simp [extract_frontmatter_title, h]
  · intro fm rest h1 h2
    simp [extract_frontmatter_title, h1, h2]

/-- Witness for C7: a document with no header at all gets the sentinel. -/
theorem c7_title_fallback_witness :
    fmMatch ("plain text" : String).data = none ∧
    extract_frontmatter_title "plain text" = unknownTitle :=
  ⟨by decide, (c7_title_fallback "plain text").1 (by decide)⟩

/-! ## Claim C10 — empty title values -/

/-- Claim C10, counterexample: the claim says the sentinel is produced *only*
when the header block or the title field is absent, but a present title field
whose value is literally the sentinel string also produces it: here the
frontmatter matches, `title:` matches with capture `未知标题`, and the
extracted title is the sentinel. -/
theorem c10_counterexample_sentinel_with_title_present :
    extract_frontmatter_title "---\ntitle: 未知标题\n---\nbody\n" = unknownTitle ∧
    fmMatch ("---\ntitle: 未知标题\n---\nbody\n" : String).data =
      some (("title: 未知标题" : String).data, ("body\n" : String).data) ∧
    titleSearch ("title: 未知标题" : String).data = some ("未知标题" : String).data := by
  refine ⟨by decide, by decide, by decide⟩

/-- Claim C10 (amended): a `title:` field with an empty value (bare `title:`
or `title: ""`) yields the empty string, the rendered output then begins with
a bare `# ` heading line; and the sentinel can arise only from a missing
header, a missing title field, or a title value that itself strips to the
sentinel string. -/
theorem c10_amended_empty_title (content : String) :
    extract_frontmatter_title "---\ntitle:\n---\nbody" = "" ∧
    extract_frontmatter_title "---\ntitle: \"\"\n---\nbody" = "" ∧
    (process_markdown_content cfgDefault "---\ntitle:\n---\nbody").1 = "# \n\nbody" ∧
    (extract_frontmatter_title content = unknownTitle →
      fmMatch content.data = none ∨
        (∃ fm rest, fmMatch content.data = some (fm, rest) ∧
          (titleSearch fm = none ∨
            ∃ g, titleSearch fm = some g ∧ pyStrip g = unknownTitle))) := by
  refine ⟨by decide, by decide, by decide, ?_⟩
  intro h
  cases hfm : fmMatch content.data with
  | none => exact Or.inl rfl
  | some pr =>
      right
      obtain ⟨fm, rest⟩ := pr
      refine ⟨fm, rest, rfl, ?_⟩
      cases hts : titleSearch fm with
      | none => exact Or.inl rfl
      | some g =>
          right
          refine ⟨g, rfl, ?_⟩
          have he : extract_frontmatter_title content = pyStrip g := by
            simp [extract_frontmatter_title, hfm, hts]
          rw [he] at h
          exact h

/-- Witness for C10 amended: a header-less document triggers the sentinel
characterisation. -/
theorem c10_amended_witness :
    extract_frontmatter_title "xx" = unknownTitle ∧
    (fmMatch ("xx" : String).data = none ∨
      (∃ fm rest, fmMatch ("xx" : String).data = some (fm, rest) ∧
        (titleSearch fm = none ∨
          ∃ g, titleSearch fm = some g ∧ pyStrip g = unknownTitle))) :=
  ⟨by decide, (c10_amended_empty_title "xx").2.2.2 (by decide)⟩

/-! ## Claim C5 — manifest structure -/

theorem tripleLex_total (x y : Nat × Nat × Nat) : tripleLex x y ∨ tripleLex y x := by
  unfold tripleLex
  omega

theorem tripleLex_trans (x y z : Nat × Nat × Nat)
    (h1 : tripleLex x y) (h2 : tripleLex y z) : tripleLex x z := by
  unfold tripleLex at h1 h2 ⊢
  omega

theorem strFoldlAppend (l : List String) (x y : String) :
    l.foldl (fun a b => a ++ b) (x ++ y) = x ++ l.foldl (fun a b => a ++ b) y := by
  induction l generalizing y with
  | nil => simp
  | cons h t ih =>
      simp only [List.foldl_cons]
      rw [String.append_assoc, ih]

theorem strJoinCons (a : String) (l : List String) :
    String.join (a :: l) = a ++ String.join l := by
  simp only [String.join, List.foldl_cons]
  have : ("" : String) ++ a = a ++ "" := by simp
  rw [this, strFoldlAppend]

theorem foldlAppendEqJoin {α : Type} (f : α → String) (l : List α) (init : String) :
    l.foldl (fun acc x => acc ++ f x) init = init ++ String.join (l.map f) := by
  induction l generalizing init with
  | nil => simp [String.join]
  | cons h t ih =>
      simp only [List.foldl_cons, List.map_cons]
      rw [ih, strJoinCons, String.append_assoc]

theorem dedupFirstAux_nodup {α : Type} [DecidableEq α] (l : List α) (acc : List α)
    (h : acc.Nodup) :
    (l.foldl (fun acc x => if x ∈ acc then acc else acc ++ [x]) acc).Nodup := by
  induction l generalizing acc with
  | nil => simpa using h
  | cons x t ih =>
      simp only [List.foldl_cons]
      by_cases hx : x ∈ acc
      · simpa [hx] using ih acc h
      · have h' : (acc ++ [x]).Nodup := by
          simp [List.nodup_append, h, hx]
        simpa [hx] using ih (acc ++ [x]) h'

theorem dedupFirst_nodup {α : Type} [DecidableEq α] (l : List α) :
    (dedupFirst l).Nodup :=
  dedupFirstAux_nodup l [] List.nodup_nil

/-- The configuration of the C5 counterexample: two categories, neither with
a configured ordering key, inserted in the order `b`, `a`. -/
def cfgC5 : Config :=
  { readme_title := "T", categories := [("b", ⟨none, none⟩), ("a", ⟨none, none⟩)],
    date_format := "YYYY-MM-DD", dirs := [], ignore_files := [],
    markdown_extensions := [], path_patterns := [], img_from_patterns := [],
    img_to_pattern := "", article_corrections := [] }

/-- Claim C5, counterexample: with two unconfigured categories inserted in
the order `b`, `a`, the rendered manifest keeps configuration order `b`, `a`
(Python's stable sort on the default key 999), not the claimed
category-identifier order `a`, `b`. -/
theorem c5_counterexample_tiebreak_is_config_order :
    (sortedCategories cfgC5).map Prod.fst = ["b", "a"] ∧
    generate_readme_content cfgC5 (initArticles cfgC5) =
      "# T\n\n# b\n\n暂无内容\n\n# a\n\n暂无内容\n\n" ∧
    (["b", "a"] : List String) ≠ ["a", "b"] := by
  refine ⟨by decide, by decide, by decide⟩

/-- Claim C5 (amended): the manifest contains every configured category
exactly once (the rendered sections are a permutation of the configured
list), ordered ascending by the configured ordering key with default 999 for
unconfigured categories and ties broken stably by configuration order; an
empty category renders the `暂无内容` placeholder; year sections appear in
strictly descending year order; and articles inside a year section are
ordered descending by the full (year, month, day) key. -/
theorem c5_amended_manifest (cfg : Config) (am : List (String × List ArticleInfo)) :
    (sortedCategories cfg).Perm cfg.categories ∧
    (sortedCategories cfg).Pairwise (fun a b => effOrder a.2 ≤ effOrder b.2) ∧
    generate_readme_content cfg am =
      "# " ++ cfg.readme_title ++ "\n\n" ++
        String.join ((sortedCategories cfg).map (renderCategory am)) ∧
    (∀ cat ∈ sortedCategories cfg, ((lookupA am cat.1).getD []).isEmpty = true →
      renderCategory am cat = "# " ++ cat.2.name.getD cat.1 ++ "\n\n" ++ "暂无内容\n\n") ∧
    (∀ arts : List ArticleInfo, (yearsSortedOf arts).Pairwise (fun a b : Nat => a > b)) ∧
    (∀ arts y, (sortedYearArticles arts y).Pairwise
      (fun a b => tripleLex (dateKey b) (dateKey a))) := by
  refine ⟨?_, ?_, ?_, ?_, ?_, ?_⟩
  · exact List.perm_insertionSort _ _
  · haveI : IsTotal (String × CategoryConfig) (fun a b => effOrder a.2 ≤ effOrder b.2) :=
      ⟨fun a b => Int.le_total _ _⟩
    haveI : IsTrans (String × CategoryConfig) (fun a b => effOrder a.2 ≤ effOrder b.2) :=
      ⟨fun _ _ _ h1 h2 => le_trans h1 h2⟩
    exact List.sorted_insertionSort _ _
  · exact foldlAppendEqJoin (renderCategory am) (sortedCategories cfg) _
  · intro cat hmem hempty
    simp only [renderCategory, hempty, if_true, reduceIte]
  · intro arts
    have hperm := List.perm_insertionSort (fun a b : Nat => b ≤ a) (articlesByYearKeys arts)
    have hnd : (yearsSortedOf arts).Nodup :=
      hperm.nodup_iff.mpr (dedupFirst_nodup _)
    haveI : IsTotal Nat (fun a b : Nat => b ≤ a) := ⟨fun a b => Nat.le_total b a⟩
    haveI : IsTrans Nat (fun a b : Nat => b ≤ a) := ⟨fun _ _ _ h1 h2 => le_trans h2 h1⟩
    have hsorted : (yearsSortedOf arts).Pairwise (fun a b : Nat => b ≤ a) :=
      List.sorted_insertionSort _ _
    exact (hsorted.and hnd).imp (fun h => lt_of_le_of_ne h.1 (Ne.symm h.2))
  · intro arts y
    haveI : IsTotal ArticleInfo (fun a b => tripleLex (dateKey b) (dateKey a)) :=
      ⟨fun a b => tripleLex_total (dateKey b) (dateKey a)⟩
    haveI : IsTrans ArticleInfo (fun a b => tripleLex (dateKey b) (dateKey a)) :=
      ⟨fun _ _ _ h1 h2 => tripleLex_trans _ _ _ h2 h1⟩
    exact List.sorted_insertionSort _ _

/-- Witness for C5 amended: category `b` of the counterexample configuration
is empty and renders the placeholder. -/
theorem c5_amended_witness :
    (("b", ({ name := none, order := none } : CategoryConfig)) ∈ sortedCategories cfgC5) ∧
    ((lookupA (initArticles cfgC5) "b").getD []).isEmpty = true ∧
    renderCategory (initArticles cfgC5) ("b", { name := none, order := none }) =
      "# b\n\n暂无内容\n\n" :=
  ⟨by decide, by decide,
    (c5_amended_manifest cfgC5 (initArticles cfgC5)).2.2.2.1
      ("b", { name := none, order := none }) (by decide) (by decide)⟩

/-! ## Characterisation of one document step -/

theorem doc_needs_update_fsGet (processed : String) (o : Option String) :
    doc_needs_update processed (o.map some) = false ↔ o = some processed := by
  cases o with
  | none => simp [doc_needs_update]
  | some ex => simp [doc_needs_update]

theorem processable_split (cfg : Config) (f : String × String)
    (hp : processableB cfg f = true) :
    isMarkdownFile cfg (baseName f.1) = true ∧
      shouldIgnoreFile cfg (baseName f.1) = false := by
  unfold processableB at hp
  rcases Bool.and_eq_true_iff.mp hp with ⟨h1, h2⟩
  exact ⟨h1, by simpa using h2⟩

theorem docStep_skip_file (cfg : Config) (tdir cat : String) (st : RunState)
    (f : String × String) (h : processableB cfg f = false) :
    docStep cfg tdir cat st f = st := by
  unfold docStep
  by_cases h1 : isMarkdownFile cfg (baseName f.1) = false
  · simp [h1]
  · have h1' : isMarkdownFile cfg (baseName f.1) = true := by
      revert h1
      cases isMarkdownFile cfg (baseName f.1) <;> simp
    have h2 : shouldIgnoreFile cfg (baseName f.1) = true := by
      unfold processableB at h
      rw [h1'] at h
      simpa using h
    simp [h1', h2]

theorem docStep_nokey (cfg : Config) (tdir cat : String) (st : RunState)
    (f : String × String) (hp : processableB cfg f = true)
    (hk : lookupA st.articles cat = none) :
    docStep cfg tdir cat st f =
      { st with used_images := addImages st.used_images (extract_image_paths cfg f.2) } := by
  obtain ⟨h1, h2⟩ := processable_split cfg f hp
  unfold docStep
  simp [h1, h2, hk]

theorem docStep_write (cfg : Config) (tdir cat : String) (st : RunState)
    (f : String × String) (hp : processableB cfg f = true)
    (b : List ArticleInfo) (hk : lookupA st.articles cat = some b)
    (hw : fsGet st.dest (tdir ++ "/" ++ f.1) ≠ some (process_markdown_content cfg f.2).1) :
    docStep cfg tdir cat st f =
      { dest := fsSet st.dest (tdir ++ "/" ++ f.1) (process_markdown_content cfg f.2).1
        used_images := addImages st.used_images (extract_image_paths cfg f.2)
        articles := articlesAppend st.articles cat (articleInfoOf cfg tdir f)
        updated_files := st.updated_files ++ [cat ++ "/" ++ baseName f.1]
        writeLog := st.writeLog ++ [tdir ++ "/" ++ f.1] } := by
  obtain ⟨h1, h2⟩ := processable_split cfg f hp
  have hne : doc_needs_update (process_markdown_content cfg f.2).1
      ((fsGet st.dest (tdir ++ "/" ++ f.1)).map some) = true := by
    cases hval : doc_needs_update (process_markdown_content cfg f.2).1
        ((fsGet st.dest (tdir ++ "/" ++ f.1)).map some) with
    | false => exact absurd ((doc_needs_update_fsGet _ _).mp hval) hw
    | true => rfl
  unfold docStep
  simp [h1, h2, hk, hne]

theorem docStep_skip_write (cfg : Config) (tdir cat : String) (st : RunState)
    (f : String × String) (hp : processableB cfg f = true)
    (b : List ArticleInfo) (hk : lookupA st.articles cat = some b)
    (hs : fsGet st.dest (tdir ++ "/" ++ f.1) = some (process_markdown_content cfg f.2).1) :
    docStep cfg tdir cat st f =
      { st with used_images := addImages st.used_images (extract_image_paths cfg f.2)
                articles := articlesAppend st.articles cat (articleInfoOf cfg tdir f) } := by
  obtain ⟨h1, h2⟩ := processable_split cfg f hp
  have hne : doc_needs_update (process_markdown_content cfg f.2).1
      ((fsGet st.dest (tdir ++ "/" ++ f.1)).map some) = false :=
    (doc_needs_update_fsGet _ _).mpr hs
  unfold docStep
  simp [h1, h2, hk, hne]

/-! ## Claim C4 — change detection on the rendered output -/

/-- Claim C4: the per-document write decision compares the *processed*
content against the existing destination text: a missing destination file or
a failing destination read forces a write; an existing destination skips
exactly when its text equals the transformed output; after the decision the
step writes the transformed output (or nothing); and two raw sources with the
same filename and the same transformed output produce the same destination
effect — raw-byte changes that do not change the transform never cause a
write. -/
theorem c4_change_detection (cfg : Config) (tdir cat : String) (st : RunState)
    (f : String × String) (hp : processableB cfg f = true)
    (b : List ArticleInfo) (hk : lookupA st.articles cat = some b) :
    doc_needs_update (process_markdown_content cfg f.2).1 none = true ∧
    doc_needs_update (process_markdown_content cfg f.2).1 (some none) = true ∧
    (∀ ex, doc_needs_update (process_markdown_content cfg f.2).1 (some (some ex)) = false
      ↔ ex = (process_markdown_content cfg f.2).1) ∧
    (fsGet st.dest (tdir ++ "/" ++ f.1) = some (process_markdown_content cfg f.2).1 →
      (docStep cfg tdir cat st f).dest = st.dest ∧
      (docStep cfg tdir cat st f).writeLog = st.writeLog) ∧
    (fsGet st.dest (tdir ++ "/" ++ f.1) ≠ some (process_markdown_content cfg f.2).1 →
      (docStep cfg tdir cat st f).dest =
        fsSet st.dest (tdir ++ "/" ++ f.1) (process_markdown_content cfg f.2).1 ∧
      (docStep cfg tdir cat st f).writeLog = st.writeLog ++ [tdir ++ "/" ++ f.1]) ∧
    (∀ g : String × String, g.1 = f.1 →
      (process_markdown_content cfg g.2).1 = (process_markdown_content cfg f.2).1 →
      (docStep cfg tdir cat st g).dest = (docStep cfg tdir cat st f).dest) := by
  refine ⟨by simp [doc_needs_update], by simp [doc_needs_update], ?_, ?_, ?_, ?_⟩
  · intro ex
    simp [doc_needs_update]
  · intro hs
    rw [docStep_skip_write cfg tdir cat st f hp b hk hs]
    exact ⟨rfl, rfl⟩
  · intro hw
    rw [docStep_write cfg tdir cat st f hp b hk hw]
    exact ⟨rfl, rfl⟩
  · intro g hg1 hg2
    have hpg : processableB cfg g = true := by
      unfold processableB at hp ⊢
      rw [hg1]
      exact hp
    by_cases hs : fsGet st.dest (tdir ++ "/" ++ f.1) = some (process_markdown_content cfg f.2).1
    · have hsg : fsGet st.dest (tdir ++ "/" ++ g.1) =
          some (process_markdown_content cfg g.2).1 := by
        rw [hg1, hg2]
        exact hs
      rw [docStep_skip_write cfg tdir cat st g hpg b hk hsg,
        docStep_skip_write cfg tdir cat st f hp b hk hs]
    · have hsg : fsGet st.dest (tdir ++ "/" ++ g.1) ≠
          some (process_markdown_content cfg g.2).1 := by
        rw [hg1, hg2]
        exact hs
      rw [docStep_write cfg tdir cat st g hpg b hk hsg,
        docStep_write cfg tdir cat st f hp b hk hs]
      simp only [hg1, hg2]

/-- A one-category configuration for concrete witnesses. -/
def cfgW : Config :=
  { readme_title := "T", categories := [("c", { name := none, order := none })],
    date_format := "YYYY-MM-DD", dirs := [("c", "t")], ignore_files := [],
    markdown_extensions := [".md"], path_patterns := [], img_from_patterns := [],
    img_to_pattern := "", article_corrections := [] }

/-- Witness for C4: over an empty destination the step writes the processed
output of `a.md`. -/
theorem c4_change_detection_witness :
    processableB cfgW ("a.md", "hi") = true ∧
    lookupA (initState cfgW []).articles "c" = some [] ∧
    fsGet (initState cfgW []).dest ("t" ++ "/" ++ "a.md") ≠
      some (process_markdown_content cfgW "hi").1 ∧
    (docStep cfgW "t" "c" (initState cfgW []) ("a.md", "hi")).writeLog = ["t/a.md"] := by
  refine ⟨by decide, by decide, by decide, ?_⟩
  have h := (c4_change_detection cfgW "t" "c" (initState cfgW []) ("a.md", "hi")
    (by decide) [] (by decide)).2.2.2.2.1 (by decide)
  simpa using h.2

/-! ## Claim C9 — the record is appended regardless of the write decision -/

/-- Claim C9: for every successfully processed, non-ignored markdown file
whose category has a configured bucket, the step appends the file's
`ArticleInfo` to that bucket whether or not the destination was written, and
the resulting buckets do not depend on the destination tree at all — the
manifest content is therefore independent of the write/skip decision. -/
theorem c9_record_appended_regardless (cfg : Config) (tdir cat : String) (st : RunState)
    (f : String × String) (hp : processableB cfg f = true)
    (b : List ArticleInfo) (hk : lookupA st.articles cat = some b) :
    (docStep cfg tdir cat st f).articles =
      articlesAppend st.articles cat (articleInfoOf cfg tdir f) ∧
    (∀ st' : RunState, st'.articles = st.articles →
      lookupA st'.articles cat = some b →
      (docStep cfg tdir cat st' f).articles = (docStep cfg tdir cat st f).articles) := by
  have hgen : ∀ (s : RunState) (bb : List ArticleInfo),
      lookupA s.articles cat = some bb →
      (docStep cfg tdir cat s f).articles =
        articlesAppend s.articles cat (articleInfoOf cfg tdir f) := by
    intro s bb hkk
    by_cases hs : fsGet s.dest (tdir ++ "/" ++ f.1) = some (process_markdown_content cfg f.2).1
    · rw [docStep_skip_write cfg tdir cat s f hp bb hkk hs]
    · rw [docStep_write cfg tdir cat s f hp bb hkk hs]
  refine ⟨hgen st b hk, ?_⟩
  intro st' h1 hk'
  rw [hgen st' b hk', hgen st b hk, h1]

/-- Witness for C9: the record of `a.md` lands in bucket `c` even though this
particular step writes (and a skipping step would produce the same bucket). -/
theorem c9_record_appended_witness :
    processableB cfgW ("a.md", "hi") = true ∧
    lookupA (initState cfgW []).articles "c" = some [] ∧
    (docStep cfgW "t" "c" (initState cfgW []) ("a.md", "hi")).articles =
      articlesAppend (initState cfgW []).articles "c" (articleInfoOf cfgW "t" ("a.md", "hi")) :=
  ⟨by decide, by decide,
    (c9_record_appended_regardless cfgW "t" "c" (initState cfgW []) ("a.md", "hi")
      (by decide) [] (by decide)).1⟩

/-! ## Claim C3 — asset propagation -/

theorem strAppend_left_cancel {a b c : String} (h : a ++ b = a ++ c) : b = c := by
  have hd := congrArg String.data h
  simp only [String.data_append] at hd
  exact String.ext (List.append_cancel_left hd)

theorem dedupFirstAux_mem {α : Type} [DecidableEq α] (l : List α) (acc : List α) (x : α) :
    x ∈ l.foldl (fun acc y => if y ∈ acc then acc else acc ++ [y]) acc ↔
      x ∈ acc ∨ x ∈ l := by
  induction l generalizing acc with
  | nil => simp
  | cons h t ih =>
      simp only [List.foldl_cons]
      by_cases hh : h ∈ acc
      · rw [if_pos hh, ih]
        constructor
        · rintro (hx | hx)
          · exact Or.inl hx
          · exact Or.inr (List.mem_cons_of_mem _ hx)
        · rintro (hx | hx)
          · exact Or.inl hx
          · rcases List.mem_cons.mp hx with hx | hx
            · exact Or.inl (hx ▸ hh)
            · exact Or.inr hx
      · rw [if_neg hh, ih]
        simp only [List.mem_append, List.mem_singleton, List.mem_cons]
        tauto

theorem dedupFirst_mem {α : Type} [DecidableEq α] (l : List α) (x : α) :
    x ∈ dedupFirst l ↔ x ∈ l := by
  unfold dedupFirst
  rw [dedupFirstAux_mem]
  simp

/-- Invariant of the image-copy fold: over an initially image-free
destination, processing references `seen` so far leaves exactly the
referenced-and-existing images present, with the source bytes. -/
theorem imgFold_inv (files : List (String × String)) (tpics : String)
    (used : List String) (d0 : FS)
    (hempty0 : ∀ p ∈ used, fsGet d0 (tpics ++ "/" ++ p) = none) :
    ∀ (L seen : List String) (S : RunState × Nat × Nat),
      (∀ p ∈ L, p ∈ used) →
      (∀ p : String, fsGet S.1.dest (tpics ++ "/" ++ p) =
        if p ∈ seen ∧ (lookupA files p).isSome = true then lookupA files p
        else fsGet d0 (tpics ++ "/" ++ p)) →
      ∀ p : String, fsGet (L.foldl (imgStep files tpics) S).1.dest (tpics ++ "/" ++ p) =
        if p ∈ seen ++ L ∧ (lookupA files p).isSome = true then lookupA files p
        else fsGet d0 (tpics ++ "/" ++ p) := by
  intro L
  induction L with
  | nil =>
      intro seen S _ hinv p
      simpa using hinv p
  | cons q T ih =>
      intro seen S hL hinv p
      have hqused : q ∈ used := hL q (List.mem_cons_self q T)
      have hTused : ∀ p ∈ T, p ∈ used := fun p hp => hL p (List.mem_cons_of_mem _ hp)
      have hassoc : seen ++ q :: T = (seen ++ [q]) ++ T := by simp
      rw [List.foldl_cons, hassoc]
      refine ih (seen ++ [q]) (imgStep files tpics S q) hTused ?_ p
      intro r
      cases hlq : lookupA files q with
      | none =>
          have hstep : imgStep files tpics S q = S := by
            simp [imgStep, hlq]
          rw [hstep]
          by_cases hrq : r = q
          · subst hrq
            rw [hinv r]
            simp [hlq]
          · rw [hinv r]
            simp [List.mem_append, List.mem_singleton, hrq]
      | some bytes =>
          by_cases hqseen : q ∈ seen
          · have htgt : fsGet S.1.dest (tpics ++ "/" ++ q) = some bytes := by
              rw [hinv q]
              simp [hqseen, hlq]
            have hneeds : file_needs_update (fsGet S.1.dest (tpics ++ "/" ++ q)).isSome
                (some bytes) (fsGet S.1.dest (tpics ++ "/" ++ q)) = false := by
              rw [htgt]
              simp [file_needs_update, get_file_hash]
            have hstep : (imgStep files tpics S q).1.dest = S.1.dest := by
              simp [imgStep, hlq, hneeds]
            rw [hstep]
            by_cases hrq : r = q
            · subst hrq
              rw [hinv r]
              simp [hqseen, hlq]
            · rw [hinv r]
              simp [List.mem_append, List.mem_singleton, hrq]
          · have htgt : fsGet S.1.dest (tpics ++ "/" ++ q) = none := by
              rw [hinv q]
              simp only [hqseen, false_and, if_false]
              exact hempty0 q hqused
            have hneeds : file_needs_update (fsGet S.1.dest (tpics ++ "/" ++ q)).isSome
                (some bytes) (fsGet S.1.dest (tpics ++ "/" ++ q)) = true := by
              rw [htgt]
              simp [file_needs_update]
            have hstep : (imgStep files tpics S q).1.dest =
                fsSet S.1.dest (tpics ++ "/" ++ q) bytes := by
              simp [imgStep, hlq, hneeds]
            rw [hstep]
            by_cases hrq : r = q
            · subst hrq
              rw [fsGet_fsSet_self]
              simp [hlq]
            · have hne : tpics ++ "/" ++ r ≠ tpics ++ "/" ++ q := by
                intro hcon
                exact hrq (strAppend_left_cancel hcon)
              rw [fsGet_fsSet_ne _ _ _ _ hne, hinv r]
              simp [List.mem_append, List.mem_singleton, hrq]

/-- The configuration used by the C3 theorems: only an asset mapping. -/
def cfgC3 : Config :=
  { readme_title := "T", categories := [], date_format := "YYYY-MM-DD",
    dirs := [("pics", "pics")], ignore_files := [], markdown_extensions := [".md"],
    path_patterns := ["/img/"], img_from_patterns := [], img_to_pattern := "",
    article_corrections := [] }

/-- Source asset roots for the C3 counterexample: assets a, b, c with the
reference set containing a dangling reference d. -/
def srcC3 : SourceTree :=
  { docs := [], pics := some [("a", "xa"), ("b", "xb"), ("c", "xc")] }

/-- State at the asset-propagation step of the C3 counterexample. -/
def stC3 : RunState :=
  { dest := [], used_images := ["a", "c", "d"], articles := [],
    updated_files := [], writeLog := [] }

/-- Claim C3, counterexample: with source assets a, b, c and reference set
a, c, d (d dangling), the code reports `len(all) - len(used) = 3 - 3 = 0`
orphans, while exactly one existing source asset (b) is unreferenced — so
the reported orphan count does not equal the number of existing unreferenced
assets once dangling references exist. -/
theorem c3_counterexample_orphan_count_dangling :
    (copy_used_images cfgC3 srcC3 stC3).2.2.2 = 0 ∧
    (((srcC3.pics.getD []).map Prod.fst).filter
      (fun p => decide (p ∉ stC3.used_images))).length = 1 ∧
    (0 : Int) ≠ (1 : Int) := by
  refine ⟨by decide, by decide, by decide⟩

/-- Claim C3 (amended): over a destination with no asset files, asset
propagation leaves at the pics target exactly the referenced assets that
exist in source, holding the source bytes; the reported orphan count is
`|existing| - |referenced|` (as a Python integer), which equals the number of
existing-but-unreferenced source assets exactly when every reference names an
existing source asset (and can otherwise undercount or go negative). -/
theorem c3_amended_asset_propagation (cfg : Config) (src : SourceTree) (st : RunState)
    (tpics : String) (files : List (String × String))
    (hp : lookupA cfg.dirs "pics" = some tpics)
    (hf : src.pics = some files)
    (hempty : ∀ p ∈ st.used_images, fsGet st.dest (tpics ++ "/" ++ p) = none) :
    (∀ p : String,
      fsGet (copy_used_images cfg src st).1.dest (tpics ++ "/" ++ p) =
        if p ∈ st.used_images ∧ (lookupA files p).isSome = true then lookupA files p
        else fsGet st.dest (tpics ++ "/" ++ p)) ∧
    (copy_used_images cfg src st).2.2.2 =
      ((dedupFirst (files.map Prod.fst)).length : Int) - (st.used_images.length : Int) ∧
    (st.used_images.Nodup → (∀ p ∈ st.used_images, p ∈ files.map Prod.fst) →
      (copy_used_images cfg src st).2.2.2 =
        (((dedupFirst (files.map Prod.fst)).filter
          (fun p => decide (p ∉ st.used_images))).length : Int)) := by
  have hunfold : copy_used_images cfg src st =
      ((st.used_images.foldl (imgStep files tpics) (st, 0, 0)).1,
        (st.used_images.foldl (imgStep files tpics) (st, 0, 0)).2.1,
        (st.used_images.foldl (imgStep files tpics) (st, 0, 0)).2.2,
        ((dedupFirst (files.map Prod.fst)).length : Int) -
          (st.used_images.length : Int)) := by
    unfold copy_used_images
    rw [hp, hf]
  refine ⟨?_, ?_, ?_⟩
  · intro p
    rw [hunfold]
    exact imgFold_inv files tpics st.used_images st.dest hempty
      st.used_images [] (st, 0, 0) (fun _ hp => hp)
      (fun r => by simp) p
  · rw [hunfold]
  · intro hnd hsub
    have hcount : (copy_used_images cfg src st).2.2.2 =
        ((dedupFirst (files.map Prod.fst)).length : Int) -
          (st.used_images.length : Int) := by
      rw [hunfold]
    rw [hcount]
    have hsub' : ∀ p ∈ st.used_images, p ∈ dedupFirst (files.map Prod.fst) :=
      fun p hp => (dedupFirst_mem _ p).mpr (hsub p hp)
    have hdnd : (dedupFirst (files.map Prod.fst)).Nodup := dedupFirst_nodup _
    have hsplit :=
      (List.filter_append_perm (fun p => decide (p ∈ st.used_images))
        (dedupFirst (files.map Prod.fst))).length_eq
    rw [List.length_append] at hsplit
    have hinlen :
        ((dedupFirst (files.map Prod.fst)).filter
          (fun p => decide (p ∈ st.used_images))).length = st.used_images.length := by
      have hperm : ((dedupFirst (files.map Prod.fst)).filter
          (fun p => decide (p ∈ st.used_images))).Perm st.used_images := by
        rw [List.perm_ext_iff_of_nodup (hdnd.filter _) hnd]
        intro a
        simp only [List.mem_filter, decide_eq_true_iff]
        constructor
        · rintro ⟨_, ha⟩
          exact ha
        · intro ha
          exact ⟨hsub' a ha, ha⟩
      exact hperm.length_eq
    have hnotform :
        ((dedupFirst (files.map Prod.fst)).filter
            (fun p => decide (p ∉ st.used_images))).length =
          ((dedupFirst (files.map Prod.fst)).filter
            (fun p => !decide (p ∈ st.used_images))).length := by
      congr 1
      apply List.filter_congr
      intro a _
      simp
    rw [hnotform]
    omega

/-- Source assets for the C3 witness (the pinned A, B, C scenario). -/
def srcC3w : SourceTree :=
  { docs := [], pics := some [("A", "1"), ("B", "2"), ("C", "3")] }

/-- State for the C3 witness: references A and C over an empty destination. -/
def stC3w : RunState :=
  { dest := [], used_images := ["A", "C"], articles := [],
    updated_files := [], writeLog := [] }

/-- Witness for C3 amended: the pinned scenario — source assets A, B, C,
references A and C — copies exactly A and C and reports one orphan. -/
theorem c3_amended_witness :
    (∀ p ∈ stC3w.used_images, fsGet stC3w.dest ("pics" ++ "/" ++ p) = none) ∧
    fsGet (copy_used_images cfgC3 srcC3w stC3w).1.dest "pics/A" = some "1" ∧
    fsGet (copy_used_images cfgC3 srcC3w stC3w).1.dest "pics/B" = none ∧
    fsGet (copy_used_images cfgC3 srcC3w stC3w).1.dest "pics/C" = some "3" ∧
    (copy_used_images cfgC3 srcC3w stC3w).2.2.2 = 1 := by
  refine ⟨by decide, by decide, by decide, by decide, ?_⟩
  have h := (c3_amended_asset_propagation cfgC3 srcC3w stC3w "pics"
    [("A", "1"), ("B", "2"), ("C", "3")] (by decide) (by decide) (by decide)).2.2
    (by decide) (by decide)
  exact h.trans (by decide)

/-! ## Claim C1 — machinery: single-step characterisations -/

theorem lookupA_articlesAppend (arts : List (String × List ArticleInfo))
    (cat : String) (info : ArticleInfo) (c : String) :
    lookupA (articlesAppend arts cat info) c =
      (lookupA arts c).map (fun l => if c = cat then l ++ [info] else l) := by
  induction arts with
  | nil => simp [articlesAppend, lookupA]
  | cons hd t ih =>
      obtain ⟨k, v⟩ := hd
      simp only [articlesAppend]
      by_cases hc : k = cat
      · rw [if_pos hc]
        by_cases hk : k = c
        · subst hk
          simp [lookupA, hc]
        · simp [lookupA, hk, ih]
      · rw [if_neg hc]
        by_cases hk : k = c
        · subst hk
          simp [lookupA, hc]
        · simp [lookupA, hk, ih]

/-- The article buckets keep the initially configured key set. -/
def keysOK (cfg : Config) (st : RunState) : Prop :=
  ∀ c, (lookupA st.articles c).isSome = (lookupA (initArticles cfg) c).isSome

theorem keysOK_init (cfg : Config) (d : FS) : keysOK cfg (initState cfg d) :=
  fun _ => rfl

theorem docStep_used (cfg : Config) (tdir cat : String) (st : RunState)
    (f : String × String) :
    (docStep cfg tdir cat st f).used_images =
      if processableB cfg f = true
      then addImages st.used_images (extract_image_paths cfg f.2)
      else st.used_images := by
  by_cases hp : processableB cfg f = true
  · rw [if_pos hp]
    cases hk : lookupA st.articles cat with
    | none => rw [docStep_nokey cfg tdir cat st f hp hk]
    | some b =>
        by_cases hs : fsGet st.dest (tdir ++ "/" ++ f.1) =
            some (process_markdown_content cfg f.2).1
        · rw [docStep_skip_write cfg tdir cat st f hp b hk hs]
        · rw [docStep_write cfg tdir cat st f hp b hk hs]
  · rw [if_neg hp, docStep_skip_file cfg tdir cat st f (by simpa using hp)]

theorem docStep_articles (cfg : Config) (tdir cat : String) (st : RunState)
    (f : String × String) :
    (docStep cfg tdir cat st f).articles =
      if processableB cfg f = true ∧ (lookupA st.articles cat).isSome = true
      then articlesAppend st.articles cat (articleInfoOf cfg tdir f)
      else st.articles := by
  by_cases hp : processableB cfg f = true
  · cases hk : lookupA st.articles cat with
    | none =>
        rw [docStep_nokey cfg tdir cat st f hp hk]
        simp [hk]
    | some b =>
        rw [if_pos (show processableB cfg f = true ∧
          (some b : Option (List ArticleInfo)).isSome = true from ⟨hp, rfl⟩)]
        by_cases hs : fsGet st.dest (tdir ++ "/" ++ f.1) =
            some (process_markdown_content cfg f.2).1
        · rw [docStep_skip_write cfg tdir cat st f hp b hk hs]
        · rw [docStep_write cfg tdir cat st f hp b hk hs]
  · rw [docStep_skip_file cfg tdir cat st f (by simpa using hp)]
    simp [hp]

theorem docStep_dest_cases (cfg : Config) (tdir cat : String) (st : RunState)
    (f : String × String) :
    ((docStep cfg tdir cat st f).dest = st.dest ∧
      (docStep cfg tdir cat st f).writeLog = st.writeLog ∧
      (docStep cfg tdir cat st f).updated_files = st.updated_files) ∨
    (processableB cfg f = true ∧ (lookupA st.articles cat).isSome = true ∧
      (docStep cfg tdir cat st f).dest =
        fsSet st.dest (tdir ++ "/" ++ f.1) (process_markdown_content cfg f.2).1) := by
  by_cases hp : processableB cfg f = true
  · cases hk : lookupA st.articles cat with
    | none =>
        left
        rw [docStep_nokey cfg tdir cat st f hp hk]
        exact ⟨rfl, rfl, rfl⟩
    | some b =>
        by_cases hs : fsGet st.dest (tdir ++ "/" ++ f.1) =
            some (process_markdown_content cfg f.2).1
        · left
          rw [docStep_skip_write cfg tdir cat st f hp b hk hs]
          exact ⟨rfl, rfl, rfl⟩
        · right
          refine ⟨hp, by simp [hk], ?_⟩
          rw [docStep_write cfg tdir cat st f hp b hk hs]
  · left
    rw [docStep_skip_file cfg tdir cat st f (by simpa using hp)]
    exact ⟨rfl, rfl, rfl⟩

theorem docStep_keysOK (cfg : Config) (tdir cat : String) (st : RunState)
    (f : String × String) (hK : keysOK cfg st) :
    keysOK cfg (docStep cfg tdir cat st f) := by
  intro c
  rw [docStep_articles]
  by_cases hc : processableB cfg f = true ∧ (lookupA st.articles cat).isSome = true
  · rw [if_pos hc, lookupA_articlesAppend]
    cases h0 : lookupA st.articles c with
    | none =>
        have h1 := hK c
        rw [h0] at h1
        simpa using h1
    | some v =>
        have h1 := hK c
        rw [h0] at h1
        simpa using h1
  · rw [if_neg hc]
    exact hK c

theorem insertIfAbsent_nodup (l : List String) (x : String) (h : l.Nodup) :
    (insertIfAbsent l x).Nodup := by
  unfold insertIfAbsent
  by_cases hx : x ∈ l
  · simpa [hx] using h
  · simp [hx, List.nodup_append, h]

theorem addImages_nodup (used imgs : List String) (h : used.Nodup) :
    (addImages used imgs).Nodup := by
  unfold addImages
  induction imgs generalizing used with
  | nil => simpa using h
  | cons i t ih =>
      simp only [List.foldl_cons]
      exact ih _ (insertIfAbsent_nodup _ _ h)

theorem docStep_used_nodup (cfg : Config) (tdir cat : String) (st : RunState)
    (f : String × String) (h : st.used_images.Nodup) :
    (docStep cfg tdir cat st f).used_images.Nodup := by
  rw [docStep_used]
  by_cases hp : processableB cfg f = true
  · rw [if_pos hp]
    exact addImages_nodup _ _ h
  · rw [if_neg hp]
    exact h

/-! ## Claim C1 — machinery: folds over one category's files -/

theorem filesFold_keysOK (cfg : Config) (tdir cat : String)
    (files : List (String × String)) (st : RunState) (hK : keysOK cfg st) :
    keysOK cfg (files.foldl (docStep cfg tdir cat) st) := by
  induction files generalizing st with
  | nil => exact hK
  | cons f t ih => exact ih _ (docStep_keysOK cfg tdir cat st f hK)

theorem filesFold_used_nodup (cfg : Config) (tdir cat : String)
    (files : List (String × String)) (st : RunState) (h : st.used_images.Nodup) :
    (files.foldl (docStep cfg tdir cat) st).used_images.Nodup := by
  induction files generalizing st with
  | nil => exact h
  | cons f t ih => exact ih _ (docStep_used_nodup cfg tdir cat st f h)

theorem filesFold_meta (cfg : Config) (tdir cat : String)
    (files : List (String × String)) (st st' : RunState)
    (hU : st.used_images = st'.used_images) (hA : st.articles = st'.articles) :
    (files.foldl (docStep cfg tdir cat) st).used_images =
      (files.foldl (docStep cfg tdir cat) st').used_images ∧
    (files.foldl (docStep cfg tdir cat) st).articles =
      (files.foldl (docStep cfg tdir cat) st').articles := by
  induction files generalizing st st' with
  | nil => exact ⟨hU, hA⟩
  | cons f t ih =>
      refine ih (docStep cfg tdir cat st f) (docStep cfg tdir cat st' f) ?_ ?_
      · simp only [docStep_used, hU]
      · simp only [docStep_articles, hA]

theorem filesFold_dest_frame (cfg : Config) (tdir cat : String)
    (files : List (String × String)) (st : RunState) (k : String) (hK : keysOK cfg st)
    (hk : (lookupA (initArticles cfg) cat).isSome = true →
      ∀ f ∈ files, processableB cfg f = true → k ≠ tdir ++ "/" ++ f.1) :
    fsGet (files.foldl (docStep cfg tdir cat) st).dest k = fsGet st.dest k := by
  induction files generalizing st with
  | nil => rfl
  | cons f t ih =>
      have hK' := docStep_keysOK cfg tdir cat st f hK
      have hk' : (lookupA (initArticles cfg) cat).isSome = true →
          ∀ g ∈ t, processableB cfg g = true → k ≠ tdir ++ "/" ++ g.1 :=
        fun hkey g hg => hk hkey g (List.mem_cons_of_mem _ hg)
      rw [List.foldl_cons]
      rcases docStep_dest_cases cfg tdir cat st f with ⟨hd, _, _⟩ | ⟨hp, hkey, hd⟩
      · rw [ih _ hK' hk', hd]
      · have hkey0 : (lookupA (initArticles cfg) cat).isSome = true := by
          rw [← hK cat]
          exact hkey
        have hne : k ≠ tdir ++ "/" ++ f.1 :=
          hk hkey0 f (List.mem_cons_self f t) hp
        rw [ih _ hK' hk', hd, fsGet_fsSet_ne _ _ _ _ hne]

theorem filesFold_post (cfg : Config) (tdir cat : String)
    (files : List (String × String)) (st : RunState) (hK : keysOK cfg st)
    (hkey : (lookupA (initArticles cfg) cat).isSome = true)
    (hnd : ((files.filter (processableB cfg)).map (fun f => tdir ++ "/" ++ f.1)).Nodup) :
    ∀ f ∈ files, processableB cfg f = true →
      fsGet (files.foldl (docStep cfg tdir cat) st).dest (tdir ++ "/" ++ f.1) =
        some (process_markdown_content cfg f.2).1 := by
  induction files generalizing st with
  | nil =>
      intro f hf
      cases hf
  | cons g t ih =>
      intro f hf hpf
      have hK' := docStep_keysOK cfg tdir cat st g hK
      by_cases hpg : processableB cfg g = true
      · have hkg : (lookupA st.articles cat).isSome = true := by
          rw [hK cat]
          exact hkey
        obtain ⟨b, hb⟩ := Option.isSome_iff_exists.mp hkg
        have hstep : fsGet (docStep cfg tdir cat st g).dest (tdir ++ "/" ++ g.1) =
            some (process_markdown_content cfg g.2).1 := by
          by_cases hs : fsGet st.dest (tdir ++ "/" ++ g.1) =
              some (process_markdown_content cfg g.2).1
          · rw [docStep_skip_write cfg tdir cat st g hpg b hb hs]
            exact hs
          · rw [docStep_write cfg tdir cat st g hpg b hb hs]
            exact fsGet_fsSet_self _ _ _
        have hfilt : (g :: t).filter (processableB cfg) =
            g :: t.filter (processableB cfg) := by
          simp [List.filter_cons, hpg]
        rw [hfilt, List.map_cons] at hnd
        have hhead : (tdir ++ "/" ++ g.1) ∉
            (t.filter (processableB cfg)).map (fun f => tdir ++ "/" ++ f.1) :=
          (List.nodup_cons.mp hnd).1
        have hndt := (List.nodup_cons.mp hnd).2
        rw [List.foldl_cons]
        rcases List.mem_cons.mp hf with rfl | hft
        · have hframe : fsGet (t.foldl (docStep cfg tdir cat)
              (docStep cfg tdir cat st f)).dest (tdir ++ "/" ++ f.1) =
              fsGet (docStep cfg tdir cat st f).dest (tdir ++ "/" ++ f.1) := by
            refine filesFold_dest_frame cfg tdir cat t _ _ hK' ?_
            intro _ f' hf' hp' heq
            exact hhead (heq ▸ List.mem_map_of_mem _ (List.mem_filter.mpr ⟨hf', hp'⟩))
          rw [hframe]
          exact hstep
        · exact ih _ hK' hndt f hft hpf
      · have hfilt : (g :: t).filter (processableB cfg) =
            t.filter (processableB cfg) := by
          simp [List.filter_cons, hpg]
        rw [hfilt] at hnd
        rw [List.foldl_cons,
          docStep_skip_file cfg tdir cat st g (by simpa using hpg)]
        rcases List.mem_cons.mp hf with rfl | hft
        · exact absurd hpf hpg
        · exact ih st hK hnd f hft hpf

theorem filesFold_skip (cfg : Config) (tdir cat : String)
    (files : List (String × String)) (st : RunState) (hK : keysOK cfg st)
    (hok : (lookupA (initArticles cfg) cat).isSome = true →
      ∀ f ∈ files, processableB cfg f = true →
        fsGet st.dest (tdir ++ "/" ++ f.1) = some (process_markdown_content cfg f.2).1) :
    (files.foldl (docStep cfg tdir cat) st).dest = st.dest ∧
    (files.foldl (docStep cfg tdir cat) st).writeLog = st.writeLog ∧
    (files.foldl (docStep cfg tdir cat) st).updated_files = st.updated_files := by
  induction files generalizing st with
  | nil => exact ⟨rfl, rfl, rfl⟩
  | cons g t ih =>
      have hK' := docStep_keysOK cfg tdir cat st g hK
      have hstep : (docStep cfg tdir cat st g).dest = st.dest ∧
          (docStep cfg tdir cat st g).writeLog = st.writeLog ∧
          (docStep cfg tdir cat st g).updated_files = st.updated_files := by
        by_cases hpg : processableB cfg g = true
        · cases hkg : lookupA st.articles cat with
          | none =>
              rw [docStep_nokey cfg tdir cat st g hpg hkg]
              exact ⟨rfl, rfl, rfl⟩
          | some b =>
              have hkey0 : (lookupA (initArticles cfg) cat).isSome = true := by
                rw [← hK cat, hkg]
                rfl
              have hs := hok hkey0 g (List.mem_cons_self g t) hpg
              rw [docStep_skip_write cfg tdir cat st g hpg b hkg hs]
              exact ⟨rfl, rfl, rfl⟩
        · rw [docStep_skip_file cfg tdir cat st g (by simpa using hpg)]
          exact ⟨rfl, rfl, rfl⟩
      have hok' : (lookupA (initArticles cfg) cat).isSome = true →
          ∀ f ∈ t, processableB cfg f = true →
            fsGet (docStep cfg tdir cat st g).dest (tdir ++ "/" ++ f.1) =
              some (process_markdown_content cfg f.2).1 := by
        intro hkey f hf hp
        rw [hstep.1]
        exact hok hkey f (List.mem_cons_of_mem _ hf) hp
      obtain ⟨h1, h2, h3⟩ := ih (docStep cfg tdir cat st g) hK' hok'
      rw [List.foldl_cons]
      exact ⟨h1.trans hstep.1, h2.trans hstep.2.1, h3.trans hstep.2.2⟩

/-! ## Claim C1 — machinery: the fold over configured categories -/

theorem dirStep_eq_pics (cfg : Config) (src : SourceTree) (st : RunState)
    (cd : String × String) (hp : cd.1 = "pics") : dirStep cfg src st cd = st := by
  simp [dirStep, hp]

theorem dirStep_eq_none (cfg : Config) (src : SourceTree) (st : RunState)
    (cd : String × String) (hp : ¬cd.1 = "pics")
    (hl : lookupA src.docs cd.1 = none) : dirStep cfg src st cd = st := by
  simp [dirStep, hp, hl]

theorem dirStep_eq_files (cfg : Config) (src : SourceTree) (st : RunState)
    (cd : String × String) (files : List (String × String)) (hp : ¬cd.1 = "pics")
    (hl : lookupA src.docs cd.1 = some files) :
    dirStep cfg src st cd = files.foldl (docStep cfg cd.2 cd.1) st := by
  simp [dirStep, hp, hl]

theorem catJobs_eq_pics (cfg : Config) (src : SourceTree) (cd : String × String)
    (hp : cd.1 = "pics") : catJobs cfg src cd = [] := by
  simp [catJobs, hp]

theorem catJobs_eq_none (cfg : Config) (src : SourceTree) (cd : String × String)
    (hp : ¬cd.1 = "pics") (hl : lookupA src.docs cd.1 = none) :
    catJobs cfg src cd = [] := by
  simp [catJobs, hp, hl]

theorem catJobs_eq_files (cfg : Config) (src : SourceTree) (cd : String × String)
    (files : List (String × String)) (hp : ¬cd.1 = "pics")
    (hl : lookupA src.docs cd.1 = some files) :
    catJobs cfg src cd =
      if (lookupA (initArticles cfg) cd.1).isSome = true
      then (files.filter (processableB cfg)).map (fileJob cfg cd.2)
      else [] := by
  simp only [catJobs, if_neg hp, hl]

theorem catJobs_targets (cfg : Config) (tdir : String)
    (files : List (String × String)) :
    ((files.filter (processableB cfg)).map (fileJob cfg tdir)).map Prod.fst =
      (files.filter (processableB cfg)).map (fun f => tdir ++ "/" ++ f.1) := by
  rw [List.map_map]
  rfl

theorem dirStep_keysOK (cfg : Config) (src : SourceTree) (st : RunState)
    (cd : String × String) (hK : keysOK cfg st) :
    keysOK cfg (dirStep cfg src st cd) := by
  by_cases hp : cd.1 = "pics"
  · rw [dirStep_eq_pics cfg src st cd hp]
    exact hK
  · cases hl : lookupA src.docs cd.1 with
    | none =>
        rw [dirStep_eq_none cfg src st cd hp hl]
        exact hK
    | some files =>
        rw [dirStep_eq_files cfg src st cd files hp hl]
        exact filesFold_keysOK cfg cd.2 cd.1 files st hK

theorem dirStep_used_nodup (cfg : Config) (src : SourceTree) (st : RunState)
    (cd : String × String) (h : st.used_images.Nodup) :
    (dirStep cfg src st cd).used_images.Nodup := by
  by_cases hp : cd.1 = "pics"
  · rw [dirStep_eq_pics cfg src st cd hp]
    exact h
  · cases hl : lookupA src.docs cd.1 with
    | none =>
        rw [dirStep_eq_none cfg src st cd hp hl]
        exact h
    | some files =>
        rw [dirStep_eq_files cfg src st cd files hp hl]
        exact filesFold_used_nodup cfg cd.2 cd.1 files st h

theorem dirStep_meta (cfg : Config) (src : SourceTree) (st st' : RunState)
    (cd : String × String) (hU : st.used_images = st'.used_images)
    (hA : st.articles = st'.articles) :
    (dirStep cfg src st cd).used_images = (dirStep cfg src st' cd).used_images ∧
    (dirStep cfg src st cd).articles = (dirStep cfg src st' cd).articles := by
  by_cases hp : cd.1 = "pics"
  · rw [dirStep_eq_pics cfg src st cd hp, dirStep_eq_pics cfg src st' cd hp]
    exact ⟨hU, hA⟩
  · cases hl : lookupA src.docs cd.1 with
    | none =>
        rw [dirStep_eq_none cfg src st cd hp hl, dirStep_eq_none cfg src st' cd hp hl]
        exact ⟨hU, hA⟩
    | some files =>
        rw [dirStep_eq_files cfg src st cd files hp hl,
          dirStep_eq_files cfg src st' cd files hp hl]
        exact filesFold_meta cfg cd.2 cd.1 files st st' hU hA

theorem dirStep_frame (cfg : Config) (src : SourceTree) (st : RunState)
    (cd : String × String) (k : String) (hK : keysOK cfg st)
    (hk : k ∉ (catJobs cfg src cd).map Prod.fst) :
    fsGet (dirStep cfg src st cd).dest k = fsGet st.dest k := by
  by_cases hp : cd.1 = "pics"
  · rw [dirStep_eq_pics cfg src st cd hp]
  · cases hl : lookupA src.docs cd.1 with
    | none => rw [dirStep_eq_none cfg src st cd hp hl]
    | some files =>
        rw [dirStep_eq_files cfg src st cd files hp hl]
        refine filesFold_dest_frame cfg cd.2 cd.1 files st k hK ?_
        intro hkey f hf hpf heq
        apply hk
        rw [catJobs_eq_files cfg src cd files hp hl, if_pos hkey, catJobs_targets]
        rw [heq]
        exact List.mem_map_of_mem _ (List.mem_filter.mpr ⟨hf, hpf⟩)

theorem dirStep_post (cfg : Config) (src : SourceTree) (st : RunState)
    (cd : String × String) (hK : keysOK cfg st)
    (hnd : ((catJobs cfg src cd).map Prod.fst).Nodup) :
    ∀ job ∈ catJobs cfg src cd, fsGet (dirStep cfg src st cd).dest job.1 = some job.2 := by
  intro job hjob
  by_cases hp : cd.1 = "pics"
  · rw [catJobs_eq_pics cfg src cd hp] at hjob
    cases hjob
  · cases hl : lookupA src.docs cd.1 with
    | none =>
        rw [catJobs_eq_none cfg src cd hp hl] at hjob
        cases hjob
    | some files =>
        rw [catJobs_eq_files cfg src cd files hp hl] at hjob hnd
        by_cases hkey : (lookupA (initArticles cfg) cd.1).isSome = true
        · rw [if_pos hkey] at hjob hnd
          rw [catJobs_targets] at hnd
          obtain ⟨f, hf, rfl⟩ := List.mem_map.mp hjob
          have hfmem := List.mem_filter.mp hf
          rw [dirStep_eq_files cfg src st cd files hp hl]
          exact filesFold_post cfg cd.2 cd.1 files st hK hkey hnd f hfmem.1 hfmem.2
        · rw [if_neg hkey] at hjob
          cases hjob

theorem dirStep_skip (cfg : Config) (src : SourceTree) (st : RunState)
    (cd : String × String) (hK : keysOK cfg st)
    (hok : ∀ job ∈ catJobs cfg src cd, fsGet st.dest job.1 = some job.2) :
    (dirStep cfg src st cd).dest = st.dest ∧
    (dirStep cfg src st cd).writeLog = st.writeLog ∧
    (dirStep cfg src st cd).updated_files = st.updated_files := by
  by_cases hp : cd.1 = "pics"
  · rw [dirStep_eq_pics cfg src st cd hp]
    exact ⟨rfl, rfl, rfl⟩
  · cases hl : lookupA src.docs cd.1 with
    | none =>
        rw [dirStep_eq_none cfg src st cd hp hl]
        exact ⟨rfl, rfl, rfl⟩
    | some files =>
        rw [dirStep_eq_files cfg src st cd files hp hl]
        refine filesFold_skip cfg cd.2 cd.1 files st hK ?_
        intro hkey f hf hpf
        have hjob : fileJob cfg cd.2 f ∈ catJobs cfg src cd := by
          rw [catJobs_eq_files cfg src cd files hp hl, if_pos hkey]
          exact List.mem_map_of_mem _ (List.mem_filter.mpr ⟨hf, hpf⟩)
        exact hok _ hjob

theorem dirsFold_keysOK (cfg : Config) (src : SourceTree)
    (ds : List (String × String)) (st : RunState) (hK : keysOK cfg st) :
    keysOK cfg (ds.foldl (dirStep cfg src) st) := by
  induction ds generalizing st with
  | nil => exact hK
  | cons cd rest ih => exact ih _ (dirStep_keysOK cfg src st cd hK)

theorem dirsFold_used_nodup (cfg : Config) (src : SourceTree)
    (ds : List (String × String)) (st : RunState) (h : st.used_images.Nodup) :
    (ds.foldl (dirStep cfg src) st).used_images.Nodup := by
  induction ds generalizing st with
  | nil => exact h
  | cons cd rest ih => exact ih _ (dirStep_used_nodup cfg src st cd h)

theorem dirsFold_meta (cfg : Config) (src : SourceTree)
    (ds : List (String × String)) (st st' : RunState)
    (hU : st.used_images = st'.used_images) (hA : st.articles = st'.articles) :
    (ds.foldl (dirStep cfg src) st).used_images =
      (ds.foldl (dirStep cfg src) st').used_images ∧
    (ds.foldl (dirStep cfg src) st).articles =
      (ds.foldl (dirStep cfg src) st').articles := by
  induction ds generalizing st st' with
  | nil => exact ⟨hU, hA⟩
  | cons cd rest ih =>
      obtain ⟨h1, h2⟩ := dirStep_meta cfg src st st' cd hU hA
      exact ih _ _ h1 h2

theorem dirsFold_frame (cfg : Config) (src : SourceTree)
    (ds : List (String × String)) (st : RunState) (k : String) (hK : keysOK cfg st)
    (hk : ∀ cd ∈ ds, k ∉ (catJobs cfg src cd).map Prod.fst) :
    fsGet (ds.foldl (dirStep cfg src) st).dest k = fsGet st.dest k := by
  induction ds generalizing st with
  | nil => rfl
  | cons cd rest ih =>
      rw [List.foldl_cons,
        ih _ (dirStep_keysOK cfg src st cd hK) (fun c hc => hk c (List.mem_cons_of_mem _ hc)),
        dirStep_frame cfg src st cd k hK (hk cd (List.mem_cons_self cd rest))]

theorem dirsFold_post (cfg : Config) (src : SourceTree)
    (ds : List (String × String)) (st : RunState) (hK : keysOK cfg st)
    (hnd : (((ds.map (catJobs cfg src)).flatten).map Prod.fst).Nodup) :
    ∀ cd ∈ ds, ∀ job ∈ catJobs cfg src cd,
      fsGet (ds.foldl (dirStep cfg src) st).dest job.1 = some job.2 := by
  induction ds generalizing st with
  | nil =>
      intro cd h
      cases h
  | cons cd0 rest ih =>
      intro cd hcd job hjob
      simp only [List.map_cons, List.flatten_cons, List.map_append] at hnd
      have hndA : ((catJobs cfg src cd0).map Prod.fst).Nodup := (List.nodup_append.mp hnd).1
      have hndB := (List.nodup_append.mp hnd).2.1
      have hdisj := (List.nodup_append.mp hnd).2.2
      have hK' := dirStep_keysOK cfg src st cd0 hK
      rw [List.foldl_cons]
      rcases List.mem_cons.mp hcd with rfl | hrest
      · have hpost := dirStep_post cfg src st cd hK hndA job hjob
        have hframe : fsGet (rest.foldl (dirStep cfg src)
            (dirStep cfg src st cd)).dest job.1 =
            fsGet (dirStep cfg src st cd).dest job.1 := by
          refine dirsFold_frame cfg src rest _ job.1 hK' ?_
          intro cd' hcd' hmem'
          obtain ⟨j, hj, hje⟩ := List.mem_map.mp hmem'
          have h1 : job.1 ∈ ((rest.map (catJobs cfg src)).flatten).map Prod.fst := by
            rw [← hje]
            refine List.mem_map_of_mem _ ?_
            exact List.mem_flatten.mpr ⟨catJobs cfg src cd', List.mem_map_of_mem _ hcd', hj⟩
          exact hdisj (List.mem_map_of_mem _ hjob) h1
        rw [hframe]
        exact hpost
      · exact ih _ hK' hndB cd hrest job hjob

theorem dirsFold_skip (cfg : Config) (src : SourceTree)
    (ds : List (String × String)) (st : RunState) (hK : keysOK cfg st)
    (hok : ∀ cd ∈ ds, ∀ job ∈ catJobs cfg src cd, fsGet st.dest job.1 = some job.2) :
    (ds.foldl (dirStep cfg src) st).dest = st.dest ∧
    (ds.foldl (dirStep cfg src) st).writeLog = st.writeLog ∧
    (ds.foldl (dirStep cfg src) st).updated_files = st.updated_files := by
  induction ds generalizing st with
  | nil => exact ⟨rfl, rfl, rfl⟩
  | cons cd0 rest ih =>
      have hstep := dirStep_skip cfg src st cd0 hK
        (fun job hjob => hok cd0 (List.mem_cons_self cd0 rest) job hjob)
      have hK' := dirStep_keysOK cfg src st cd0 hK
      have hok' : ∀ cd ∈ rest, ∀ job ∈ catJobs cfg src cd,
          fsGet (dirStep cfg src st cd0).dest job.1 = some job.2 := by
        intro cd hcd job hjob
        rw [hstep.1]
        exact hok cd (List.mem_cons_of_mem _ hcd) job hjob
      obtain ⟨h1, h2, h3⟩ := ih (dirStep cfg src st cd0) hK' hok'
      rw [List.foldl_cons]
      exact ⟨h1.trans hstep.1, h2.trans hstep.2.1, h3.trans hstep.2.2⟩

/-! ## Claim C1 — machinery: the image-copy phase -/

theorem imgStep_meta (files : List (String × String)) (tpics : String)
    (S : RunState × Nat × Nat) (p : String) :
    (imgStep files tpics S p).1.used_images = S.1.used_images ∧
    (imgStep files tpics S p).1.articles = S.1.articles := by
  cases h : lookupA files p with
  | none => simp [imgStep, h]
  | some b =>
      by_cases hn : file_needs_update (fsGet S.1.dest (tpics ++ "/" ++ p)).isSome
          (some b) (fsGet S.1.dest (tpics ++ "/" ++ p)) = true
      · simp [imgStep, h, hn]
      · simp [imgStep, h, hn]

theorem imgStep_dest_cases (files : List (String × String)) (tpics : String)
    (S : RunState × Nat × Nat) (p : String) :
    ((imgStep files tpics S p).1.dest = S.1.dest ∧
      (imgStep files tpics S p).1.writeLog = S.1.writeLog ∧
      (imgStep files tpics S p).1.updated_files = S.1.updated_files) ∨
    (∃ b, lookupA files p = some b ∧
      (imgStep files tpics S p).1.dest = fsSet S.1.dest (tpics ++ "/" ++ p) b) := by
  cases h : lookupA files p with
  | none =>
      left
      simp [imgStep, h]
  | some b =>
      by_cases hn : file_needs_update (fsGet S.1.dest (tpics ++ "/" ++ p)).isSome
          (some b) (fsGet S.1.dest (tpics ++ "/" ++ p)) = true
      · right
        exact ⟨b, rfl, by simp [imgStep, h, hn]⟩
      · left
        simp [imgStep, h, hn]

theorem imgsFold_meta (files : List (String × String)) (tpics : String)
    (L : List String) (S : RunState × Nat × Nat) :
    (L.foldl (imgStep files tpics) S).1.used_images = S.1.used_images ∧
    (L.foldl (imgStep files tpics) S).1.articles = S.1.articles := by
  induction L generalizing S with
  | nil => exact ⟨rfl, rfl⟩
  | cons p T ih =>
      rw [List.foldl_cons]
      obtain ⟨h1, h2⟩ := ih (imgStep files tpics S p)
      obtain ⟨h3, h4⟩ := imgStep_meta files tpics S p
      exact ⟨h1.trans h3, h2.trans h4⟩

theorem imgsFold_frame (files : List (String × String)) (tpics : String)
    (L : List String) (S : RunState × Nat × Nat) (k : String)
    (hk : ∀ p ∈ L, k ≠ tpics ++ "/" ++ p) :
    fsGet (L.foldl (imgStep files tpics) S).1.dest k = fsGet S.1.dest k := by
  induction L generalizing S with
  | nil => rfl
  | cons p T ih =>
      rw [List.foldl_cons, ih _ (fun q hq => hk q (List.mem_cons_of_mem _ hq))]
      rcases imgStep_dest_cases files tpics S p with ⟨hd, _, _⟩ | ⟨b, _, hd⟩
      · rw [hd]
      · rw [hd, fsGet_fsSet_ne _ _ _ _ (hk p (List.mem_cons_self p T))]

theorem file_needs_update_false_elim (b : String) (o : Option String)
    (h : file_needs_update o.isSome (some b) o = false) :
    ∃ b', o = some b' ∧ md5hex b' = md5hex b := by
  cases o with
  | none => simp [file_needs_update] at h
  | some b' =>
      refine ⟨b', rfl, ?_⟩
      simp only [file_needs_update, Option.isSome_some, if_true, get_file_hash,
        bne_eq_false_iff_eq, reduceIte] at h
      exact h.symm

theorem imgStep_skip_state (files : List (String × String)) (tpics : String)
    (S : RunState × Nat × Nat) (p b b' : String) (hl : lookupA files p = some b)
    (hb' : fsGet S.1.dest (tpics ++ "/" ++ p) = some b')
    (hh : md5hex b' = md5hex b) :
    imgStep files tpics S p = (S.1, S.2.1, S.2.2 + 1) := by
  have hn : file_needs_update (fsGet S.1.dest (tpics ++ "/" ++ p)).isSome
      (some b) (fsGet S.1.dest (tpics ++ "/" ++ p)) = false := by
    rw [hb']
    simp [file_needs_update, get_file_hash, hh]
  simp [imgStep, hl, hn]

theorem imgsFold_skip (files : List (String × String)) (tpics : String)
    (L : List String) (S : RunState × Nat × Nat)
    (hok : ∀ p ∈ L, ∀ b, lookupA files p = some b →
      ∃ b', fsGet S.1.dest (tpics ++ "/" ++ p) = some b' ∧ md5hex b' = md5hex b) :
    (L.foldl (imgStep files tpics) S).1.dest = S.1.dest ∧
    (L.foldl (imgStep files tpics) S).1.writeLog = S.1.writeLog ∧
    (L.foldl (imgStep files tpics) S).1.updated_files = S.1.updated_files := by
  induction L generalizing S with
  | nil => exact ⟨rfl, rfl, rfl⟩
  | cons p T ih =>
      have hstep : (imgStep files tpics S p).1.dest = S.1.dest ∧
          (imgStep files tpics S p).1.writeLog = S.1.writeLog ∧
          (imgStep files tpics S p).1.updated_files = S.1.updated_files := by
        cases hl : lookupA files p with
        | none => simp [imgStep, hl]
        | some b =>
            obtain ⟨b', hb', hh⟩ := hok p (List.mem_cons_self p T) b hl
            rw [imgStep_skip_state files tpics S p b b' hl hb' hh]
            exact ⟨rfl, rfl, rfl⟩
      have hok' : ∀ q ∈ T, ∀ b, lookupA files q = some b →
          ∃ b', fsGet (imgStep files tpics S p).1.dest (tpics ++ "/" ++ q) = some b' ∧
            md5hex b' = md5hex b := by
        intro q hq b hb
        rw [hstep.1]
        exact hok q (List.mem_cons_of_mem _ hq) b hb
      obtain ⟨h1, h2, h3⟩ := ih (imgStep files tpics S p) hok'
      rw [List.foldl_cons]
      exact ⟨h1.trans hstep.1, h2.trans hstep.2.1, h3.trans hstep.2.2⟩

theorem imgsFold_post (files : List (String × String)) (tpics : String)
    (L : List String) (S : RunState × Nat × Nat) (hnd : L.Nodup) :
    ∀ p ∈ L, ∀ b, lookupA files p = some b →
      ∃ b', fsGet (L.foldl (imgStep files tpics) S).1.dest (tpics ++ "/" ++ p) = some b' ∧
        md5hex b' = md5hex b := by
  induction L generalizing S with
  | nil =>
      intro p h
      cases h
  | cons q T ih =>
      intro p hp b hb
      have hndT := (List.nodup_cons.mp hnd).2
      have hqT := (List.nodup_cons.mp hnd).1
      rw [List.foldl_cons]
      rcases List.mem_cons.mp hp with rfl | hpT
      · have hstep : ∃ b', fsGet (imgStep files tpics S p).1.dest (tpics ++ "/" ++ p) =
            some b' ∧ md5hex b' = md5hex b := by
          by_cases hn : file_needs_update (fsGet S.1.dest (tpics ++ "/" ++ p)).isSome
              (some b) (fsGet S.1.dest (tpics ++ "/" ++ p)) = true
          · refine ⟨b, ?_, rfl⟩
            have hd : (imgStep files tpics S p).1.dest =
                fsSet S.1.dest (tpics ++ "/" ++ p) b := by
              simp [imgStep, hb, hn]
            rw [hd]
            exact fsGet_fsSet_self _ _ _
          · have hn' : file_needs_update (fsGet S.1.dest (tpics ++ "/" ++ p)).isSome
                (some b) (fsGet S.1.dest (tpics ++ "/" ++ p)) = false := by
              revert hn
              cases file_needs_update (fsGet S.1.dest (tpics ++ "/" ++ p)).isSome
                (some b) (fsGet S.1.dest (tpics ++ "/" ++ p)) <;> simp
            obtain ⟨b', hb', hh⟩ := file_needs_update_false_elim b _ hn'
            refine ⟨b', ?_, hh⟩
            have hd : (imgStep files tpics S p).1.dest = S.1.dest := by
              simp [imgStep, hb, hn]
            rw [hd]
            exact hb'
        obtain ⟨b', hb', hh⟩ := hstep
        refine ⟨b', ?_, hh⟩
        have hframe : fsGet (T.foldl (imgStep files tpics)
            (imgStep files tpics S p)).1.dest (tpics ++ "/" ++ p) =
            fsGet (imgStep files tpics S p).1.dest (tpics ++ "/" ++ p) := by
          refine imgsFold_frame files tpics T _ _ ?_
          intro r hr heq
          exact hqT (strAppend_left_cancel heq ▸ hr)
        rw [hframe]
        exact hb'
      · exact ih _ hndT p hpT b hb

/-! ## Claim C1 — machinery: whole-pass facts -/

theorem copy_used_images_eq_present (cfg : Config) (src : SourceTree) (st : RunState)
    (tpics : String) (files : List (String × String))
    (hpx : lookupA cfg.dirs "pics" = some tpics) (hsx : src.pics = some files) :
    (copy_used_images cfg src st).1 =
      (st.used_images.foldl (imgStep files tpics) (st, 0, 0)).1 := by
  unfold copy_used_images
  rw [hpx, hsx]

theorem copy_used_images_eq_absent (cfg : Config) (src : SourceTree) (st : RunState)
    (h : lookupA cfg.dirs "pics" = none ∨ src.pics = none) :
    (copy_used_images cfg src st).1 = st := by
  unfold copy_used_images
  rcases h with h | h
  · rw [h]
  · rw [h]
    cases lookupA cfg.dirs "pics" <;> rfl

theorem copy_meta (cfg : Config) (src : SourceTree) (st : RunState) :
    ((copy_used_images cfg src st).1).used_images = st.used_images ∧
    ((copy_used_images cfg src st).1).articles = st.articles := by
  cases hpx : lookupA cfg.dirs "pics" with
  | none =>
      rw [copy_used_images_eq_absent cfg src st (Or.inl hpx)]
      exact ⟨rfl, rfl⟩
  | some tpics =>
      cases hsx : src.pics with
      | none =>
          rw [copy_used_images_eq_absent cfg src st (Or.inr hsx)]
          exact ⟨rfl, rfl⟩
      | some files =>
          rw [copy_used_images_eq_present cfg src st tpics files hpx hsx]
          exact imgsFold_meta files tpics st.used_images (st, 0, 0)

theorem docsPhase_canon (cfg : Config) (src : SourceTree) (d : FS) :
    (docsPhase cfg src (initState cfg d)).used_images = usedOf cfg src ∧
    (docsPhase cfg src (initState cfg d)).articles = articlesOf cfg src :=
  dirsFold_meta cfg src cfg.dirs (initState cfg d) (initState cfg []) rfl rfl

theorem usedOf_nodup (cfg : Config) (src : SourceTree) : (usedOf cfg src).Nodup :=
  dirsFold_used_nodup cfg src cfg.dirs (initState cfg []) List.nodup_nil

theorem imgTargetsOf_present (cfg : Config) (src : SourceTree) (tpics : String)
    (files : List (String × String)) (hpx : lookupA cfg.dirs "pics" = some tpics)
    (hsx : src.pics = some files) :
    imgTargetsOf cfg src = (usedOf cfg src).map (fun p => tpics ++ "/" ++ p) := by
  unfold imgTargetsOf
  rw [hpx, hsx]

theorem backup_post_docs (cfg : Config) (src : SourceTree) (dest0 : FS)
    (hndD : (docTargetsOf cfg src).Nodup)
    (hdisj : (docTargetsOf cfg src).Disjoint (imgTargetsOf cfg src))
    (hRD : "README.md" ∉ docTargetsOf cfg src) :
    ∀ job ∈ docJobs cfg src, fsGet (backup cfg src dest0).dest job.1 = some job.2 := by
  intro job hjob
  have hjt : job.1 ∈ docTargetsOf cfg src := List.mem_map_of_mem _ hjob
  have hdocs1 : fsGet (docsPhase cfg src (initState cfg dest0)).dest job.1 =
      some job.2 := by
    obtain ⟨l, hl, hjl⟩ := List.mem_flatten.mp hjob
    obtain ⟨cd, hcd, rfl⟩ := List.mem_map.mp hl
    exact dirsFold_post cfg src cfg.dirs _ (keysOK_init cfg dest0) hndD cd hcd job hjl
  have hcopy : fsGet ((copy_used_images cfg src
      (docsPhase cfg src (initState cfg dest0))).1).dest job.1 = some job.2 := by
    cases hpx : lookupA cfg.dirs "pics" with
    | none =>
        rw [copy_used_images_eq_absent cfg src _ (Or.inl hpx)]
        exact hdocs1
    | some tpics =>
        cases hsx : src.pics with
        | none =>
            rw [copy_used_images_eq_absent cfg src _ (Or.inr hsx)]
            exact hdocs1
        | some files =>
            rw [copy_used_images_eq_present cfg src _ tpics files hpx hsx]
            have hframe := imgsFold_frame files tpics
              (docsPhase cfg src (initState cfg dest0)).used_images
              (docsPhase cfg src (initState cfg dest0), 0, 0) job.1 ?_
            · rw [hframe]
              exact hdocs1
            · intro p hp heq
              have hpu : p ∈ usedOf cfg src := by
                rw [← (docsPhase_canon cfg src dest0).1]
                exact hp
              have himg : job.1 ∈ imgTargetsOf cfg src := by
                rw [imgTargetsOf_present cfg src tpics files hpx hsx]
                rw [heq]
                exact List.mem_map_of_mem _ hpu
              exact hdisj hjt himg
  show fsGet (writeReadme cfg _).dest job.1 = some job.2
  have hne : job.1 ≠ "README.md" := fun h => hRD (h ▸ hjt)
  rw [show (writeReadme cfg ((copy_used_images cfg src
      (docsPhase cfg src (initState cfg dest0))).1)).dest =
    fsSet ((copy_used_images cfg src (docsPhase cfg src (initState cfg dest0))).1).dest
      "README.md" (generate_readme_content cfg ((copy_used_images cfg src
        (docsPhase cfg src (initState cfg dest0))).1).articles) from rfl]
  rw [fsGet_fsSet_ne _ _ _ _ hne]
  exact hcopy

theorem backup_post_imgs (cfg : Config) (src : SourceTree) (dest0 : FS)
    (tpics : String) (files : List (String × String))
    (hpx : lookupA cfg.dirs "pics" = some tpics) (hsx : src.pics = some files)
    (hRI : "README.md" ∉ imgTargetsOf cfg src) :
    ∀ p ∈ usedOf cfg src, ∀ b, lookupA files p = some b →
      ∃ b', fsGet (backup cfg src dest0).dest (tpics ++ "/" ++ p) = some b' ∧
        md5hex b' = md5hex b := by
  intro p hp b hb
  have hp1 : p ∈ (docsPhase cfg src (initState cfg dest0)).used_images := by
    rw [(docsPhase_canon cfg src dest0).1]
    exact hp
  have hpost := imgsFold_post files tpics
    (docsPhase cfg src (initState cfg dest0)).used_images
    (docsPhase cfg src (initState cfg dest0), 0, 0)
    ((docsPhase_canon cfg src dest0).1 ▸ usedOf_nodup cfg src) p hp1 b hb
  obtain ⟨b', hb', hh⟩ := hpost
  refine ⟨b', ?_, hh⟩
  have hne : tpics ++ "/" ++ p ≠ "README.md" := by
    intro h
    apply hRI
    rw [imgTargetsOf_present cfg src tpics files hpx hsx, ← h]
    exact List.mem_map_of_mem _ hp
  show fsGet (writeReadme cfg _).dest (tpics ++ "/" ++ p) = some b'
  rw [show (writeReadme cfg ((copy_used_images cfg src
      (docsPhase cfg src (initState cfg dest0))).1)).dest =
    fsSet ((copy_used_images cfg src (docsPhase cfg src (initState cfg dest0))).1).dest
      "README.md" (generate_readme_content cfg ((copy_used_images cfg src
        (docsPhase cfg src (initState cfg dest0))).1).articles) from rfl]
  rw [fsGet_fsSet_ne _ _ _ _ hne]
  rw [copy_used_images_eq_present cfg src _ tpics files hpx hsx]
  exact hb'

theorem backup_readme (cfg : Config) (src : SourceTree) (dest0 : FS) :
    fsGet (backup cfg src dest0).dest "README.md" =
      some (generate_readme_content cfg (articlesOf cfg src)) ∧
    (backup cfg src dest0).articles = articlesOf cfg src ∧
    (backup cfg src dest0).used_images = usedOf cfg src := by
  have harts : ((copy_used_images cfg src
      (docsPhase cfg src (initState cfg dest0))).1).articles = articlesOf cfg src :=
    (copy_meta cfg src _).2.trans (docsPhase_canon cfg src dest0).2
  have hused : ((copy_used_images cfg src
      (docsPhase cfg src (initState cfg dest0))).1).used_images = usedOf cfg src :=
    (copy_meta cfg src _).1.trans (docsPhase_canon cfg src dest0).1
  refine ⟨?_, harts, hused⟩
  show fsGet (fsSet _ "README.md" (generate_readme_content cfg
    ((copy_used_images cfg src (docsPhase cfg src (initState cfg dest0))).1).articles))
      "README.md" = _
  rw [fsGet_fsSet_self, harts]

/-- A second pass over a destination that already holds every processed
document, hash-matching copies of the referenced existing assets, and the
README performs no document or asset write; its only write is the README,
rewritten with identical content. -/
theorem backup_second (cfg : Config) (src : SourceTree) (d : FS)
    (hdocsR : ∀ job ∈ docJobs cfg src, fsGet d job.1 = some job.2)
    (himgR : ∀ tpics files, lookupA cfg.dirs "pics" = some tpics → src.pics = some files →
      ∀ p ∈ usedOf cfg src, ∀ b, lookupA files p = some b →
        ∃ b', fsGet d (tpics ++ "/" ++ p) = some b' ∧ md5hex b' = md5hex b)
    (hreadme : fsGet d "README.md" =
      some (generate_readme_content cfg (articlesOf cfg src))) :
    (backup cfg src d).updated_files = [] ∧
    (backup cfg src d).writeLog = ["README.md"] ∧
    (backup cfg src d).dest = d := by
  have hok1 : ∀ cd ∈ cfg.dirs, ∀ job ∈ catJobs cfg src cd,
      fsGet (initState cfg d).dest job.1 = some job.2 := by
    intro cd hcd job hjob
    exact hdocsR job
      (List.mem_flatten.mpr ⟨catJobs cfg src cd, List.mem_map_of_mem _ hcd, hjob⟩)
  have hskip0 := dirsFold_skip cfg src cfg.dirs (initState cfg d) (keysOK_init cfg d) hok1
  have hskip1 : (docsPhase cfg src (initState cfg d)).dest = d ∧
      (docsPhase cfg src (initState cfg d)).writeLog = ([] : List String) ∧
      (docsPhase cfg src (initState cfg d)).updated_files = ([] : List String) := hskip0
  have hcanon := docsPhase_canon cfg src d
  have hst2 : ((copy_used_images cfg src (docsPhase cfg src (initState cfg d))).1).dest = d ∧
      ((copy_used_images cfg src (docsPhase cfg src (initState cfg d))).1).writeLog = [] ∧
      ((copy_used_images cfg src
        (docsPhase cfg src (initState cfg d))).1).updated_files = [] := by
    cases hpx : lookupA cfg.dirs "pics" with
    | none =>
        rw [copy_used_images_eq_absent cfg src _ (Or.inl hpx)]
        exact hskip1
    | some tpics =>
        cases hsx : src.pics with
        | none =>
            rw [copy_used_images_eq_absent cfg src _ (Or.inr hsx)]
            exact hskip1
        | some files =>
            rw [copy_used_images_eq_present cfg src _ tpics files hpx hsx]
            have hok2 : ∀ p ∈ (docsPhase cfg src (initState cfg d)).used_images,
                ∀ b, lookupA files p = some b →
                ∃ b', fsGet ((docsPhase cfg src (initState cfg d), 0, 0) :
                    RunState × Nat × Nat).1.dest (tpics ++ "/" ++ p) = some b' ∧
                  md5hex b' = md5hex b := by
              intro p hp b hb
              have hpu : p ∈ usedOf cfg src := hcanon.1 ▸ hp
              obtain ⟨b', hb', hh⟩ := himgR tpics files hpx hsx p hpu b hb
              refine ⟨b', ?_, hh⟩
              show fsGet (docsPhase cfg src (initState cfg d)).dest _ = _
              rw [hskip1.1]
              exact hb'
            have hskip2 := imgsFold_skip files tpics
              (docsPhase cfg src (initState cfg d)).used_images
              (docsPhase cfg src (initState cfg d), 0, 0) hok2
            refine ⟨?_, ?_, ?_⟩
            · rw [hskip2.1]
              exact hskip1.1
            · rw [hskip2.2.1]
              exact hskip1.2.1
            · rw [hskip2.2.2]
              exact hskip1.2.2
  have harts : ((copy_used_images cfg src
      (docsPhase cfg src (initState cfg d))).1).articles = articlesOf cfg src :=
    (copy_meta cfg src _).2.trans hcanon.2
  refine ⟨hst2.2.2, ?_, ?_⟩
  · show ((copy_used_images cfg src
      (docsPhase cfg src (initState cfg d))).1).writeLog ++ ["README.md"] = ["README.md"]
    rw [hst2.2.1]
    rfl
  · show fsSet ((copy_used_images cfg src (docsPhase cfg src (initState cfg d))).1).dest
      "README.md" (generate_readme_content cfg ((copy_used_images cfg src
        (docsPhase cfg src (initState cfg d))).1).articles) = d
    rw [hst2.1, harts]
    exact fsSet_eq_of_get d "README.md" _ hreadme

/-! ## Claim C1 — the theorems -/

/-- Configuration for the C1 concrete runs: one document category and the
asset category. -/
def cfgC1 : Config :=
  { readme_title := "博客文章备份",
    categories := [("posts", { name := some "文章", order := some 1 })],
    date_format := "YYYY-MM-DD",
    dirs := [("posts", "posts"), ("pics", "pics")],
    ignore_files := ["_index.md"],
    markdown_extensions := [".md"],
    path_patterns := ["/img/"],
    img_from_patterns := ["/old/img/"],
    img_to_pattern := "/img/",
    article_corrections := [("drafts", "/posts/")] }

/-- Source tree for the C1 concrete runs: one document referencing one of the
two assets. -/
def srcC1 : SourceTree :=
  { docs := [("posts",
      [("20230115_a.md", "---\ntitle: A\n---\nsee ![p](/img/a.png)\n")])],
    pics := some [("a.png", "PNG"), ("b.png", "QQQ")] }

/-- Claim C1, counterexample: `generate_readme` writes `README.md`
unconditionally (line 417), so the second pass over unchanged sources and an
up-to-date destination still performs a destination write — the write log of
the second run is `["README.md"]`, not empty as the claim demands. -/
theorem c1_counterexample_readme_always_written :
    (backup cfgC1 srcC1 (backup cfgC1 srcC1 []).dest).writeLog = ["README.md"] ∧
    (["README.md"] : List String) ≠ ([] : List String) := by
  refine ⟨by decide, by decide⟩

/-- Claim C1 (amended): provided the destination paths a pass can write (the
README, the per-document targets, and the per-asset targets) are pairwise
distinct — as they are for any configuration mapping categories to disjoint
destination directories — the second pass over unchanged source and
configuration performs zero document writes and zero asset writes (its
reported update list is empty), its only destination write is `README.md`,
rewritten with byte-identical content, and the destination tree is
byte-identical after both runs. -/
theorem c1_amended_idempotent (cfg : Config) (src : SourceTree) (dest0 : FS)
    (hnd : (runTargets cfg src).Nodup) :
    (backup cfg src (backup cfg src dest0).dest).updated_files = [] ∧
    (backup cfg src (backup cfg src dest0).dest).writeLog = ["README.md"] ∧
    (backup cfg src (backup cfg src dest0).dest).dest = (backup cfg src dest0).dest := by
  have hnd' := hnd
  unfold runTargets at hnd'
  have hR : "README.md" ∉ docTargetsOf cfg src ++ imgTargetsOf cfg src :=
    (List.nodup_cons.mp hnd').1
  have hDI := (List.nodup_cons.mp hnd').2
  have hndD : (docTargetsOf cfg src).Nodup := (List.nodup_append.mp hDI).1
  have hdisj := (List.nodup_append.mp hDI).2.2
  have hRD : "README.md" ∉ docTargetsOf cfg src :=
    fun h => hR (List.mem_append.mpr (Or.inl h))
  have hRI : "README.md" ∉ imgTargetsOf cfg src :=
    fun h => hR (List.mem_append.mpr (Or.inr h))
  exact backup_second cfg src (backup cfg src dest0).dest
    (backup_post_docs cfg src dest0 hndD hdisj hRD)
    (fun tpics files hpx hsx => backup_post_imgs cfg src dest0 tpics files hpx hsx hRI)
    (backup_readme cfg src dest0).1

/-- Witness for C1 amended: the one-document, one-referenced-asset
configuration has pairwise-distinct write targets, and its second pass
reports no update, writes only the README, and leaves the destination
byte-identical. -/
theorem c1_amended_witness :
    (runTargets cfgC1 srcC1).Nodup ∧
    (backup cfgC1 srcC1 (backup cfgC1 srcC1 []).dest).updated_files = [] ∧
    (backup cfgC1 srcC1 (backup cfgC1 srcC1 []).dest).dest =
      (backup cfgC1 srcC1 []).dest := by
  have h := c1_amended_idempotent cfgC1 srcC1 [] (by decide)
  exact ⟨by decide, h.1, h.2.2⟩

end HugoBackup
